import Mathlib

/-!
Verification development for the zulip-claude-bot repository.

Strings from the TypeScript source are embedded as `List Char` (one entry
per UTF-16 code unit of the original; all inputs considered here are in the
BMP, where the two coincide).  JavaScript numbers holding integral values
are embedded as `Nat` or `Int`.  Remote calls to the Zulip gateway are
embedded as emitted effect values (`MsgOp`, `TaskEffect`, ...), so each
source function becomes a pure function from its inputs and the persisted
state to the new state plus the list of remote operations it performs.
-/

namespace ZulipBot

/-! ### src/zulip.ts — whitespace, trimming, lastIndexOf

JavaScript's String.prototype.trimStart / trimEnd and the \s class of the
regexes in zulip.ts strip the WhiteSpace and LineTerminator code points. -/

/-- The JavaScript white-space set (WhiteSpace ∪ LineTerminator):
TAB, LF, VT, FF, CR, SP, NBSP, OGHAM SP, U+2000–200A, LS, PS, NNBSP,
MMSP, IDEOGRAPHIC SP, and the BOM U+FEFF. -/
def isJsWhitespace (c : Char) : Bool :=
  let n := c.toNat
  n == 9 || n == 10 || n == 11 || n == 12 || n == 13 || n == 32 ||
  n == 0xA0 || n == 0x1680 || (0x2000 ≤ n && n ≤ 0x200A) ||
  n == 0x2028 || n == 0x2029 || n == 0x202F || n == 0x205F ||
  n == 0x3000 || n == 0xFEFF

/-- JavaScript `s.trimStart()`. -/
def trimStart (s : List Char) : List Char := s.dropWhile isJsWhitespace

/-- JavaScript `s.trimEnd()`. -/
def trimEnd (s : List Char) : List Char :=
  (s.reverse.dropWhile isJsWhitespace).reverse

/-- Helper for `lastIndexOf`: walk the string once, remembering the last
index `i ≤ bound` at which `pat` occurs. -/
def lastIndexOfGo (pat : List Char) (bound : Nat) :
    List Char → Nat → Option Nat → Option Nat
  | [], i, best =>
      if decide (i ≤ bound) && pat.isPrefixOf ([] : List Char) then some i else best
  | c :: rest, i, best =>
      lastIndexOfGo pat bound rest (i + 1)
        (if decide (i ≤ bound) && pat.isPrefixOf (c :: rest) then some i else best)

/-- JavaScript `s.lastIndexOf(pat, bound)`: the largest start index `i ≤ bound`
at which `pat` occurs in `s`, or `-1` when there is none. -/
def lastIndexOf (s pat : List Char) (bound : Nat) : Int :=
  match lastIndexOfGo pat bound s 0 none with
  | some i => (i : Int)
  | none => -1

/-! ### src/zulip.ts — splitMessage -/

/-- `const MAX_MESSAGE_LENGTH = 9500`. -/
def MAX_MESSAGE_LENGTH : Nat := 9500

/-- The split-index selection of one iteration of the `while` loop of
`splitMessage`: last `"\n\n"` at or before `maxLen`, else last `"\n"`,
else a hard split at `maxLen` (the source checks `splitIdx <= 0`, so an
index of `0` also falls through to the next choice). -/
def chooseSplitIdx (remaining : List Char) (maxLen : Nat) : Int :=
  if lastIndexOf remaining ['\n', '\n'] maxLen ≤ 0 then
    (if lastIndexOf remaining ['\n'] maxLen ≤ 0 then (maxLen : Int)
     else lastIndexOf remaining ['\n'] maxLen)
  else lastIndexOf remaining ['\n', '\n'] maxLen

lemma lastIndexOfGo_le (pat : List Char) (bound : Nat) :
    ∀ (s : List Char) (i : Nat) (best : Option Nat),
      (∀ j, best = some j → j ≤ bound) →
      ∀ k, lastIndexOfGo pat bound s i best = some k → k ≤ bound := by
  intro s
  induction s with
  | nil =>
      intro i best hbest k hk
      simp only [lastIndexOfGo] at hk
      split at hk
      · rename_i hcond
        simp only [Bool.and_eq_true, decide_eq_true_eq] at hcond
        cases hk; exact hcond.1
      · exact hbest k hk
  | cons c rest ih =>
      intro i best hbest k hk
      simp only [lastIndexOfGo] at hk
      refine ih (i + 1) _ ?_ k hk
      intro j hj
      split at hj
      · rename_i hcond
        simp only [Bool.and_eq_true, decide_eq_true_eq] at hcond
        cases hj; exact hcond.1
      · exact hbest j hj

lemma lastIndexOf_le (s pat : List Char) (bound : Nat) :
    lastIndexOf s pat bound ≤ (bound : Int) := by
  unfold lastIndexOf
  split
  · rename_i i hi
    have := lastIndexOfGo_le pat bound s 0 none (by intro j h; cases h) i hi
    exact_mod_cast this
  · omega

lemma chooseSplitIdx_le (remaining : List Char) (maxLen : Nat) :
    (chooseSplitIdx remaining maxLen).toNat ≤ maxLen := by
  unfold chooseSplitIdx
  split
  · split
    · omega
    · have := lastIndexOf_le remaining ['\n'] maxLen
      omega
  · have := lastIndexOf_le remaining ['\n', '\n'] maxLen
    omega

lemma chooseSplitIdx_toNat_pos (remaining : List Char) (maxLen : Nat)
    (hm : 1 ≤ maxLen) : 1 ≤ (chooseSplitIdx remaining maxLen).toNat := by
  unfold chooseSplitIdx
  split
  · split
    · omega
    · rename_i h2
      omega
  · rename_i h1
    omega

lemma length_dropWhile_le (p : Char → Bool) (l : List Char) :
    (l.dropWhile p).length ≤ l.length := by
  induction l with
  | nil => simp [List.dropWhile]
  | cons c rest ih =>
      simp only [List.dropWhile]
      split
      · exact Nat.le_trans ih (by simp)
      · simp

/-- `chunks.push(remaining.slice(0, splitIdx).trimEnd())` — the chunk one
loop iteration of `splitMessage` appends. -/
def currentChunk (maxLen : Nat) (remaining : List Char) : List Char :=
  trimEnd (remaining.take (chooseSplitIdx remaining maxLen).toNat)

/-- `remaining = remaining.slice(splitIdx).trimStart()` — the text one loop
iteration of `splitMessage` leaves for the next iteration. -/
def nextRemaining (maxLen : Nat) (remaining : List Char) : List Char :=
  (remaining.drop (chooseSplitIdx remaining maxLen).toNat).dropWhile isJsWhitespace

lemma nextRemaining_lt (maxLen : Nat) (hm : 1 ≤ maxLen) (remaining : List Char)
    (h : maxLen < remaining.length) :
    (nextRemaining maxLen remaining).length < remaining.length := by
  have h1 : 1 ≤ (chooseSplitIdx remaining maxLen).toNat :=
    chooseSplitIdx_toNat_pos remaining maxLen hm
  have h2 := length_dropWhile_le isJsWhitespace
      (remaining.drop (chooseSplitIdx remaining maxLen).toNat)
  have h3 := List.length_drop (chooseSplitIdx remaining maxLen).toNat remaining
  unfold nextRemaining
  omega

/-- The `while (remaining.length > maxLen)` loop of `splitMessage`, plus the
trailing `if (remaining.length > 0) chunks.push(remaining)`.  `chunks` is the
accumulator array of the source. -/
def splitMessageGo (maxLen : Nat) (hm : 1 ≤ maxLen) (remaining : List Char)
    (chunks : List (List Char)) : List (List Char) :=
  if h : maxLen < remaining.length then
    splitMessageGo maxLen hm (nextRemaining maxLen remaining)
      (chunks ++ [currentChunk maxLen remaining])
  else if 0 < remaining.length then chunks ++ [remaining] else chunks
termination_by remaining.length
decreasing_by exact nextRemaining_lt maxLen hm remaining h

/-- `splitMessage(content, maxLen)` from src/zulip.ts.  The source diverges
when `maxLen = 0` (the hard split can choose index 0 and make no progress),
so the embedding carries the hypothesis `1 ≤ maxLen`; the source only ever
calls it with `maxLen = MAX_MESSAGE_LENGTH = 9500`. -/
def splitMessage (content : List Char) (maxLen : Nat) (hm : 1 ≤ maxLen) :
    List (List Char) :=
  if content.length ≤ maxLen then [content]
  else splitMessageGo maxLen hm content []

lemma one_le_MAX : 1 ≤ MAX_MESSAGE_LENGTH := by norm_num [MAX_MESSAGE_LENGTH]

/-! ### src/zulip.ts — remote message operations and finalize -/

/-- A remote write performed through the Zulip client: PATCH of the
streaming placeholder message, a fresh `messages.send`, or DELETE of the
placeholder. -/
inductive MsgOp where
  | edit (content : List Char)
  | send (content : List Char)
  | delete
deriving DecidableEq

/-- The remote writes performed by `finalize(content)` of
`startStreamingMessage`: one PATCH when the text fits in
`MAX_MESSAGE_LENGTH`, otherwise a PATCH with `chunks[0]` followed by one
send per further chunk (`for (let i = 1; i < chunks.length; i++)`). -/
def finalizeOps (content : List Char) : List MsgOp :=
  if content.length ≤ MAX_MESSAGE_LENGTH then [MsgOp.edit content]
  else
    -- chunks[0] of the source; splitMessage never returns [] (proved below)
    MsgOp.edit ((splitMessage content MAX_MESSAGE_LENGTH one_le_MAX).headD []) ::
      ((splitMessage content MAX_MESSAGE_LENGTH one_le_MAX).drop 1).map MsgOp.send

/-- Number of `send` operations in a list of remote writes. -/
def numSends (ops : List MsgOp) : Nat :=
  ops.countP fun op => match op with | MsgOp.send _ => true | _ => false

/-- Number of `edit` (PATCH) operations in a list of remote writes. -/
def numEdits (ops : List MsgOp) : Nat :=
  ops.countP fun op => match op with | MsgOp.edit _ => true | _ => false

/-! ### General lemmas about splitMessage -/

lemma splitMessageGo_step (maxLen : Nat) (hm : 1 ≤ maxLen) (remaining : List Char)
    (chunks : List (List Char)) (h : maxLen < remaining.length) :
    splitMessageGo maxLen hm remaining chunks =
      splitMessageGo maxLen hm (nextRemaining maxLen remaining)
        (chunks ++ [currentChunk maxLen remaining]) := by
  rw [splitMessageGo]
  simp [h]

lemma splitMessageGo_exit (maxLen : Nat) (hm : 1 ≤ maxLen) (remaining : List Char)
    (chunks : List (List Char)) (h : remaining.length ≤ maxLen)
    (h0 : 0 < remaining.length) :
    splitMessageGo maxLen hm remaining chunks = chunks ++ [remaining] := by
  rw [splitMessageGo]
  simp only [if_pos h0]
  rw [dif_neg (by omega)]

lemma splitMessageGo_nil (maxLen : Nat) (hm : 1 ≤ maxLen)
    (chunks : List (List Char)) :
    splitMessageGo maxLen hm [] chunks = chunks := by
  rw [splitMessageGo]
  simp

/-- The accumulator of the splitMessage loop is only appended to. -/
lemma splitMessageGo_acc (maxLen : Nat) (hm : 1 ≤ maxLen) :
    ∀ (n : Nat) (remaining : List Char), remaining.length = n →
      ∀ chunks, splitMessageGo maxLen hm remaining chunks =
        chunks ++ splitMessageGo maxLen hm remaining [] := by
  intro n
  induction n using Nat.strong_induction_on with
  | _ n ih =>
    intro remaining hlen chunks
    by_cases h : maxLen < remaining.length
    · have hlt := nextRemaining_lt maxLen hm remaining h
      rw [splitMessageGo_step maxLen hm remaining chunks h,
          splitMessageGo_step maxLen hm remaining [] h]
      rw [ih (nextRemaining maxLen remaining).length (by omega) _ rfl
            (chunks ++ [currentChunk maxLen remaining]),
          ih (nextRemaining maxLen remaining).length (by omega) _ rfl
            ([] ++ [currentChunk maxLen remaining])]
      simp
    · push_neg at h
      by_cases h0 : 0 < remaining.length
      · rw [splitMessageGo_exit maxLen hm remaining chunks h h0,
            splitMessageGo_exit maxLen hm remaining [] h h0]
        simp
      · have : remaining = [] := by
          cases remaining with
          | nil => rfl
          | cons a l => simp at h0
        subst this
        rw [splitMessageGo_nil, splitMessageGo_nil]
        simp

lemma length_trimEnd_le (l : List Char) : (trimEnd l).length ≤ l.length := by
  unfold trimEnd
  have := length_dropWhile_le isJsWhitespace l.reverse
  simp only [List.length_reverse] at *
  omega

/-- Every chunk the loop produces has length at most maxLen. -/
lemma splitMessageGo_chunk_le (maxLen : Nat) (hm : 1 ≤ maxLen) :
    ∀ (n : Nat) (remaining : List Char), remaining.length = n →
      ∀ c ∈ splitMessageGo maxLen hm remaining [], c.length ≤ maxLen := by
  intro n
  induction n using Nat.strong_induction_on with
  | _ n ih =>
    intro remaining hlen c hc
    by_cases h : maxLen < remaining.length
    · have hlt := nextRemaining_lt maxLen hm remaining h
      rw [splitMessageGo_step maxLen hm remaining [] h,
          splitMessageGo_acc maxLen hm _ _ rfl] at hc
      simp only [List.nil_append, List.mem_append, List.mem_singleton] at hc
      rcases hc with hc | hc
      · subst hc
        unfold currentChunk
        have h1 := length_trimEnd_le
          (remaining.take (chooseSplitIdx remaining maxLen).toNat)
        have h2 := List.length_take (chooseSplitIdx remaining maxLen).toNat remaining
        have h3 := chooseSplitIdx_le remaining maxLen
        omega
      · exact ih (nextRemaining maxLen remaining).length (by omega) _ rfl c hc
    · push_neg at h
      by_cases h0 : 0 < remaining.length
      · rw [splitMessageGo_exit maxLen hm remaining [] h h0] at hc
        simp only [List.nil_append, List.mem_singleton] at hc
        subst hc
        exact h
      · have : remaining = [] := by
          cases remaining with
          | nil => rfl
          | cons a l => simp at h0
        subst this
        rw [splitMessageGo_nil] at hc
        simp at hc

/-- "Concatenating all chunks, re-inserting the boundary whitespace removed
at split points, reconstructs the original text": `SplitGlue cs s` says that
`s` is the concatenation of the chunks `cs` interleaved (and followed) by
all-whitespace filler. -/
inductive SplitGlue : List (List Char) → List Char → Prop where
  | nil (w : List Char) (hw : ∀ c ∈ w, isJsWhitespace c = true) : SplitGlue [] w
  | cons (c w : List Char) (cs : List (List Char)) (rest : List Char)
      (hw : ∀ x ∈ w, isJsWhitespace x = true) (hrest : SplitGlue cs rest) :
      SplitGlue (c :: cs) (c ++ w ++ rest)

lemma splitGlue_single (l : List Char) : SplitGlue [l] l := by
  have h := SplitGlue.cons l [] [] []
    (by intro x hx; simp at hx) (SplitGlue.nil [] (by intro x hx; simp at hx))
  simpa using h

lemma trimEnd_decomp (l : List Char) :
    ∃ w, l = trimEnd l ++ w ∧ ∀ c ∈ w, isJsWhitespace c = true := by
  refine ⟨(l.reverse.takeWhile isJsWhitespace).reverse, ?_, ?_⟩
  · unfold trimEnd
    conv_lhs => rw [← l.reverse_reverse,
      ← List.takeWhile_append_dropWhile isJsWhitespace l.reverse]
    rw [List.reverse_append]
  · intro c hc
    rw [List.mem_reverse] at hc
    exact List.mem_takeWhile_imp hc

lemma dropWhile_decomp (l : List Char) :
    ∃ w, l = w ++ l.dropWhile isJsWhitespace ∧ ∀ c ∈ w, isJsWhitespace c = true :=
  ⟨l.takeWhile isJsWhitespace, (List.takeWhile_append_dropWhile _ _).symm,
    fun _ hc => List.mem_takeWhile_imp hc⟩

/-- One loop iteration only removes whitespace at the split boundary. -/
lemma remaining_decomp (maxLen : Nat) (remaining : List Char) :
    ∃ w, remaining = currentChunk maxLen remaining ++ w ++ nextRemaining maxLen remaining ∧
      ∀ c ∈ w, isJsWhitespace c = true := by
  obtain ⟨w1, hw1, hw1ws⟩ :=
    trimEnd_decomp (remaining.take (chooseSplitIdx remaining maxLen).toNat)
  obtain ⟨w2, hw2, hw2ws⟩ :=
    dropWhile_decomp (remaining.drop (chooseSplitIdx remaining maxLen).toNat)
  refine ⟨w1 ++ w2, ?_, ?_⟩
  · conv_lhs => rw [← List.take_append_drop (chooseSplitIdx remaining maxLen).toNat remaining]
    rw [hw1, hw2]
    unfold currentChunk nextRemaining
    simp [List.append_assoc]
  · intro c hc
    rcases List.mem_append.mp hc with hc | hc
    · exact hw1ws c hc
    · exact hw2ws c hc

lemma splitMessageGo_glue (maxLen : Nat) (hm : 1 ≤ maxLen) :
    ∀ (n : Nat) (remaining : List Char), remaining.length = n →
      SplitGlue (splitMessageGo maxLen hm remaining []) remaining := by
  intro n
  induction n using Nat.strong_induction_on with
  | _ n ih =>
    intro remaining hlen
    by_cases h : maxLen < remaining.length
    · have hlt := nextRemaining_lt maxLen hm remaining h
      rw [splitMessageGo_step maxLen hm remaining [] h,
          splitMessageGo_acc maxLen hm _ _ rfl]
      obtain ⟨w, hw, hws⟩ := remaining_decomp maxLen remaining
      simp only [List.nil_append, List.singleton_append]
      nth_rewrite 3 [hw]
      exact SplitGlue.cons _ w _ _ hws
        (ih (nextRemaining maxLen remaining).length (by omega) _ rfl)
    · push_neg at h
      by_cases h0 : 0 < remaining.length
      · rw [splitMessageGo_exit maxLen hm remaining [] h h0]
        simpa using splitGlue_single remaining
      · have : remaining = [] := by
          cases remaining with
          | nil => rfl
          | cons a l => simp at h0
        subst this
        rw [splitMessageGo_nil]
        exact SplitGlue.nil [] (by intro c hc; simp at hc)

lemma splitMessage_ne_nil (content : List Char) (maxLen : Nat) (hm : 1 ≤ maxLen) :
    splitMessage content maxLen hm ≠ [] := by
  unfold splitMessage
  split
  · simp
  · rename_i h
    push_neg at h
    rw [splitMessageGo_step maxLen hm content [] h,
        splitMessageGo_acc maxLen hm _ _ rfl]
    simp

/-! ### Evaluating splitMessage on concrete long texts

Kernel evaluation of 18000-character lists is infeasible, so the scan of
`lastIndexOf` is evaluated symbolically: a run of characters that cannot
start a match is skipped in one step. -/

lemma lastIndexOfGo_skip_replicate (p0 : Char) (pt : List Char) (c : Char)
    (hc : (p0 == c) = false) (bound : Nat) :
    ∀ (n : Nat) (rest : List Char) (i : Nat) (best : Option Nat),
      lastIndexOfGo (p0 :: pt) bound (List.replicate n c ++ rest) i best
        = lastIndexOfGo (p0 :: pt) bound rest (i + n) best := by
  intro n
  induction n with
  | zero => intro rest i best; simp
  | succ m ih =>
      intro rest i best
      rw [List.replicate_succ, List.cons_append]
      simp only [lastIndexOfGo, List.isPrefixOf, hc, Bool.false_and, Bool.and_false,
        Bool.false_eq_true, if_false]
      rw [ih rest (i + 1) best]
      congr 1
      omega

lemma lastIndexOfGo_past (pat : List Char) (bound : Nat) :
    ∀ (s : List Char) (i : Nat) (best : Option Nat), bound < i →
      lastIndexOfGo pat bound s i best = best := by
  intro s
  induction s with
  | nil =>
      intro i best h
      have hd : decide (i ≤ bound) = false := by simp; omega
      simp only [lastIndexOfGo, hd, Bool.false_and, Bool.false_eq_true, if_false]
  | cons c rest ih =>
      intro i best h
      have hd : decide (i ≤ bound) = false := by simp; omega
      simp only [lastIndexOfGo, hd, Bool.false_and, Bool.false_eq_true, if_false]
      exact ih (i + 1) best (by omega)

/-- A match of `"\n\n"` directly followed by a `'b'`: the scan records the
match index and moves on. -/
lemma lastIndexOfGo_hit_nn (bound : Nat) (X : List Char) (i : Nat)
    (hi : i ≤ bound) (best : Option Nat) :
    lastIndexOfGo ['\n', '\n'] bound ('\n' :: '\n' :: 'b' :: X) i best
      = lastIndexOfGo ['\n', '\n'] bound ('b' :: X) (i + 1 + 1) (some i) := by
  have e1 : List.isPrefixOf ['\n', '\n'] ('\n' :: '\n' :: 'b' :: X) = true := by
    simp [List.isPrefixOf]
  have e2 : List.isPrefixOf ['\n', '\n'] ('\n' :: 'b' :: X) = false := by
    have hnb : (('\n' : Char) == 'b') = false := by decide
    simp [List.isPrefixOf, hnb]
  have hd : decide (i ≤ bound) = true := by simp [hi]
  simp only [lastIndexOfGo, e1, e2, hd, Bool.true_and, Bool.and_false, Bool.and_true,
    Bool.false_eq_true, if_true, if_false]

/-- 6000 `'b'` characters — one long paragraph. -/
def bs6000 : List Char := List.replicate 6000 'b'

/-- 18004 characters: three 6000-character paragraphs separated by blank
lines (`"\n\n"`). -/
def content3 : List Char := bs6000 ++ '\n' :: '\n' :: (bs6000 ++ '\n' :: '\n' :: bs6000)

/-- 19000 `'b'` characters with no newline at all. -/
def content4 : List Char := List.replicate 19000 'b'

lemma bs6000_cons : bs6000 = 'b' :: List.replicate 5999 'b' := by
  rw [bs6000, show (6000 : Nat) = 5999 + 1 from rfl, List.replicate_succ]

lemma rep6000_cons : List.replicate 6000 'b' = 'b' :: List.replicate 5999 'b' := by
  rw [show (6000 : Nat) = 5999 + 1 from rfl, List.replicate_succ]

lemma lioGo_nn_content3 :
    lastIndexOfGo ['\n', '\n'] 9500 content3 0 none = some 6000 := by
  rw [content3, bs6000]
  rw [lastIndexOfGo_skip_replicate '\n' ['\n'] 'b' (by decide) 9500 6000 _ 0 none]
  rw [rep6000_cons, List.cons_append]
  rw [lastIndexOfGo_hit_nn 9500 _ _ (by omega) none]
  rw [← List.cons_append, ← List.replicate_succ]
  rw [lastIndexOfGo_skip_replicate '\n' ['\n'] 'b' (by decide) 9500 (5999 + 1) _ _ _]
  rw [lastIndexOfGo_past ['\n', '\n'] 9500 _ _ _ (by omega)]

lemma lioGo_nn_r2 :
    lastIndexOfGo ['\n', '\n'] 9500 (bs6000 ++ '\n' :: '\n' :: bs6000) 0 none
      = some 6000 := by
  rw [bs6000]
  rw [lastIndexOfGo_skip_replicate '\n' ['\n'] 'b' (by decide) 9500 6000 _ 0 none]
  rw [rep6000_cons]
  rw [lastIndexOfGo_hit_nn 9500 _ _ (by omega) none]
  rw [← List.replicate_succ, ← List.append_nil (List.replicate (5999 + 1) 'b')]
  rw [lastIndexOfGo_skip_replicate '\n' ['\n'] 'b' (by decide) 9500 (5999 + 1) _ _ _]
  rw [lastIndexOfGo_past ['\n', '\n'] 9500 _ _ _ (by omega)]

lemma lioGo_content4 (pt : List Char) :
    lastIndexOfGo ('\n' :: pt) 9500 content4 0 none = none := by
  rw [content4, ← List.append_nil (List.replicate 19000 'b')]
  rw [lastIndexOfGo_skip_replicate '\n' pt 'b' (by decide) 9500 19000 _ 0 none]
  rw [lastIndexOfGo_past ('\n' :: pt) 9500 _ _ _ (by omega)]

lemma lio_nn_content3 : lastIndexOf content3 ['\n', '\n'] 9500 = 6000 := by
  unfold lastIndexOf
  rw [lioGo_nn_content3]
  rfl

lemma lio_nn_r2 :
    lastIndexOf (bs6000 ++ '\n' :: '\n' :: bs6000) ['\n', '\n'] 9500 = 6000 := by
  unfold lastIndexOf
  rw [lioGo_nn_r2]
  rfl

lemma lio_content4 (pt : List Char) :
    lastIndexOf content4 ('\n' :: pt) 9500 = -1 := by
  unfold lastIndexOf
  rw [lioGo_content4]

lemma dropWhile_ws_replicate_b (n : Nat) :
    (List.replicate n 'b').dropWhile isJsWhitespace = List.replicate n 'b' := by
  cases n with
  | zero => simp
  | succ m =>
      rw [List.replicate_succ, List.dropWhile_cons, if_neg (by decide)]

lemma trimEnd_replicate_b (n : Nat) :
    trimEnd (List.replicate n 'b') = List.replicate n 'b' := by
  unfold trimEnd
  rw [List.reverse_replicate, dropWhile_ws_replicate_b, List.reverse_replicate]

lemma bs6000_length : bs6000.length = 6000 := by
  rw [bs6000, List.length_replicate]

lemma content3_length : content3.length = 18004 := by
  simp only [content3, List.length_append, List.length_cons, bs6000_length]

lemma r2_length : (bs6000 ++ '\n' :: '\n' :: bs6000).length = 12002 := by
  simp only [List.length_append, List.length_cons, bs6000_length]

lemma content4_length : content4.length = 19000 := by
  rw [content4, List.length_replicate]

lemma choose_content3 : (chooseSplitIdx content3 9500).toNat = 6000 := by
  unfold chooseSplitIdx
  rw [lio_nn_content3, if_neg (by norm_num)]
  rfl

lemma choose_r2 :
    (chooseSplitIdx (bs6000 ++ '\n' :: '\n' :: bs6000) 9500).toNat = 6000 := by
  unfold chooseSplitIdx
  rw [lio_nn_r2, if_neg (by norm_num)]
  rfl

lemma choose_content4 : (chooseSplitIdx content4 9500).toNat = 9500 := by
  unfold chooseSplitIdx
  rw [lio_content4 ['\n'], lio_content4 [], if_pos (by norm_num), if_pos (by norm_num)]
  rfl

lemma currentChunk_content3 : currentChunk 9500 content3 = bs6000 := by
  unfold currentChunk
  rw [choose_content3, content3, List.take_left' bs6000_length, bs6000,
    trimEnd_replicate_b]

lemma nextRemaining_content3 :
    nextRemaining 9500 content3 = bs6000 ++ '\n' :: '\n' :: bs6000 := by
  unfold nextRemaining
  rw [choose_content3, content3, List.drop_left' bs6000_length]
  rw [List.dropWhile_cons, if_pos (by decide), List.dropWhile_cons, if_pos (by decide)]
  rw [bs6000_cons, List.cons_append, List.dropWhile_cons, if_neg (by decide),
    ← List.cons_append, ← bs6000_cons]

lemma currentChunk_r2 :
    currentChunk 9500 (bs6000 ++ '\n' :: '\n' :: bs6000) = bs6000 := by
  unfold currentChunk
  rw [choose_r2, List.take_left' bs6000_length, bs6000, trimEnd_replicate_b]

lemma nextRemaining_r2 :
    nextRemaining 9500 (bs6000 ++ '\n' :: '\n' :: bs6000) = bs6000 := by
  unfold nextRemaining
  rw [choose_r2, List.drop_left' bs6000_length]
  rw [List.dropWhile_cons, if_pos (by decide), List.dropWhile_cons, if_pos (by decide)]
  rw [bs6000, dropWhile_ws_replicate_b]

lemma currentChunk_content4 :
    currentChunk 9500 content4 = List.replicate 9500 'b' := by
  unfold currentChunk
  have hmin : (9500 ⊓ 19000 : Nat) = 9500 := by norm_num
  rw [choose_content4, content4, List.take_replicate, hmin, trimEnd_replicate_b]

lemma nextRemaining_content4 :
    nextRemaining 9500 content4 = List.replicate 9500 'b' := by
  unfold nextRemaining
  have hsub : (19000 - 9500 : Nat) = 9500 := by norm_num
  rw [choose_content4, content4, List.drop_replicate, hsub, dropWhile_ws_replicate_b]

lemma splitMessage_content3 :
    splitMessage content3 MAX_MESSAGE_LENGTH one_le_MAX = [bs6000, bs6000, bs6000] := by
  show splitMessage content3 9500 one_le_MAX = _
  unfold splitMessage
  rw [if_neg (by rw [content3_length]; norm_num)]
  rw [splitMessageGo_step _ _ _ _ (by rw [content3_length]; norm_num)]
  rw [currentChunk_content3, nextRemaining_content3]
  rw [splitMessageGo_step _ _ _ _ (by rw [r2_length]; norm_num)]
  rw [currentChunk_r2, nextRemaining_r2]
  rw [splitMessageGo_exit _ _ _ _ (by rw [bs6000_length]; norm_num)
    (by rw [bs6000_length]; norm_num)]
  rfl

lemma splitMessage_content4 :
    splitMessage content4 MAX_MESSAGE_LENGTH one_le_MAX
      = [List.replicate 9500 'b', List.replicate 9500 'b'] := by
  show splitMessage content4 9500 one_le_MAX = _
  unfold splitMessage
  rw [if_neg (by rw [content4_length]; norm_num)]
  rw [splitMessageGo_step _ _ _ _ (by rw [content4_length]; norm_num)]
  rw [currentChunk_content4, nextRemaining_content4]
  rw [splitMessageGo_exit _ _ _ _ (by rw [List.length_replicate])
    (by rw [List.length_replicate]; norm_num)]
  rfl

/-! ### Claim C1 and C10 -/

/-- C1 (amended): `finalize` on text at or under MAX_MESSAGE_LENGTH performs
exactly one edit of the placeholder and posts nothing.  On text over the
limit it performs one edit (the first chunk of `splitMessage`) plus one
posted message per remaining chunk — as many chunks as paragraph/line
splitting yields, not necessarily ⌈(len − limit)/limit⌉ — each chunk of
length at most the limit, and concatenating the chunks with the whitespace
removed at the split boundaries re-inserted reconstructs the original
text. -/
theorem c1_finalize_roundtrip (content : List Char) :
    (content.length ≤ MAX_MESSAGE_LENGTH → finalizeOps content = [MsgOp.edit content]) ∧
    (MAX_MESSAGE_LENGTH < content.length →
      ∃ c0 cs, splitMessage content MAX_MESSAGE_LENGTH one_le_MAX = c0 :: cs ∧
        finalizeOps content = MsgOp.edit c0 :: cs.map MsgOp.send ∧
        numEdits (finalizeOps content) = 1 ∧
        numSends (finalizeOps content) = cs.length ∧
        (∀ c ∈ c0 :: cs, c.length ≤ MAX_MESSAGE_LENGTH) ∧
        SplitGlue (c0 :: cs) content) := by
  constructor
  · intro h
    unfold finalizeOps
    rw [if_pos h]
  · intro h
    obtain ⟨c0, cs, hsplit⟩ :
        ∃ c0 cs, splitMessage content MAX_MESSAGE_LENGTH one_le_MAX = c0 :: cs := by
      cases hs : splitMessage content MAX_MESSAGE_LENGTH one_le_MAX with
      | nil => exact absurd hs (splitMessage_ne_nil _ _ _)
      | cons a l => exact ⟨a, l, rfl⟩
    have hops : finalizeOps content = MsgOp.edit c0 :: cs.map MsgOp.send := by
      unfold finalizeOps
      rw [if_neg (by omega), hsplit]
      rfl
    refine ⟨c0, cs, hsplit, hops, ?_, ?_, ?_, ?_⟩
    · rw [hops]
      unfold numEdits
      simp [List.countP_cons, List.countP_map, Function.comp]
    · rw [hops]
      unfold numSends
      simp [List.countP_cons, List.countP_map, Function.comp]
    · intro c hc
      rw [← hsplit] at hc
      unfold splitMessage at hc
      rw [if_neg (by omega)] at hc
      exact splitMessageGo_chunk_le MAX_MESSAGE_LENGTH one_le_MAX
        content.length content rfl c hc
    · rw [← hsplit]
      unfold splitMessage
      rw [if_neg (by omega)]
      exact splitMessageGo_glue MAX_MESSAGE_LENGTH one_le_MAX content.length content rfl

/-- Two characters of text, well under the limit. -/
def smallText : List Char := ['h', 'i']

/-- Witness for `c1_finalize_roundtrip`, at `smallText` (under the limit)
and at `content3` (three long paragraphs, over the limit). -/
theorem c1_finalize_roundtrip_witness :
    finalizeOps smallText = [MsgOp.edit smallText] ∧
    (∃ c0 cs, splitMessage content3 MAX_MESSAGE_LENGTH one_le_MAX = c0 :: cs ∧
        finalizeOps content3 = MsgOp.edit c0 :: cs.map MsgOp.send ∧
        numEdits (finalizeOps content3) = 1 ∧
        numSends (finalizeOps content3) = cs.length ∧
        (∀ c ∈ c0 :: cs, c.length ≤ MAX_MESSAGE_LENGTH) ∧
        SplitGlue (c0 :: cs) content3) :=
  ⟨(c1_finalize_roundtrip smallText).1 (by decide),
   (c1_finalize_roundtrip content3).2
     (by rw [content3_length]; norm_num [MAX_MESSAGE_LENGTH])⟩

/-- Counterexample to C1 as stated: `content3` (three 6000-character
paragraphs, 18004 characters total) is split at the two paragraph
boundaries into 3 chunks, so finalize posts 2 additional messages where
the claimed formula ⌈(len − limit)/limit⌉ gives 1; and `content4`
(19000 characters, no newline) yields a hard-split chunk of exactly 9500
characters, not strictly under the limit. -/
theorem c1_counterexample :
    MAX_MESSAGE_LENGTH < content3.length ∧
    ¬ numSends (finalizeOps content3)
        = (content3.length - MAX_MESSAGE_LENGTH + MAX_MESSAGE_LENGTH - 1) /
            MAX_MESSAGE_LENGTH ∧
    MAX_MESSAGE_LENGTH < content4.length ∧
    ¬ (∀ c ∈ splitMessage content4 MAX_MESSAGE_LENGTH one_le_MAX,
        c.length < MAX_MESSAGE_LENGTH) := by
  have hops3 : finalizeOps content3
      = MsgOp.edit bs6000 :: [MsgOp.send bs6000, MsgOp.send bs6000] := by
    unfold finalizeOps
    rw [if_neg (by rw [content3_length]; norm_num [MAX_MESSAGE_LENGTH])]
    rw [splitMessage_content3]
    rfl
  refine ⟨by rw [content3_length]; norm_num [MAX_MESSAGE_LENGTH], ?_,
    by rw [content4_length]; norm_num [MAX_MESSAGE_LENGTH], ?_⟩
  · rw [hops3, content3_length]
    unfold numSends
    simp only [List.countP_cons, List.countP_nil]
    norm_num [MAX_MESSAGE_LENGTH]
  · intro hall
    have hmem := hall (List.replicate 9500 'b')
      (by rw [splitMessage_content4]; exact List.mem_cons_self _ _)
    rw [List.length_replicate] at hmem
    exact absurd hmem (by norm_num [MAX_MESSAGE_LENGTH])

/-- C10: for a positive maximum length, every iteration of the
`splitMessage` loop chooses a split index of at least 1 and strictly
shortens the remaining text, so the loop (and hence `splitMessage`)
terminates; the third conjunct is the loop's step equation. -/
theorem c10_splitMessage_progress (remaining : List Char) (maxLen : Nat)
    (hm : 1 ≤ maxLen) (h : maxLen < remaining.length) :
    1 ≤ (chooseSplitIdx remaining maxLen).toNat ∧
    (nextRemaining maxLen remaining).length < remaining.length ∧
    splitMessageGo maxLen hm remaining [] =
      splitMessageGo maxLen hm (nextRemaining maxLen remaining)
        [currentChunk maxLen remaining] :=
  ⟨chooseSplitIdx_toNat_pos remaining maxLen hm,
   nextRemaining_lt maxLen hm remaining h,
   (splitMessageGo_step maxLen hm remaining [] h).trans (by rw [List.nil_append])⟩

/-- Witness for `c10_splitMessage_progress` at a 3-character text with
maximum length 1. -/
theorem c10_splitMessage_progress_witness :
    1 ≤ (chooseSplitIdx ['a', 'b', 'c'] 1).toNat ∧
    (nextRemaining 1 ['a', 'b', 'c']).length < (['a', 'b', 'c'] : List Char).length ∧
    splitMessageGo 1 (le_refl 1) ['a', 'b', 'c'] [] =
      splitMessageGo 1 (le_refl 1) (nextRemaining 1 ['a', 'b', 'c'])
        [currentChunk 1 ['a', 'b', 'c']] :=
  c10_splitMessage_progress ['a', 'b', 'c'] 1 (le_refl 1) (by decide)

/-! ### src/zulip.ts — the streaming composer (startStreamingMessage)

The closure state of `startStreamingMessage` is the record below; the
spinner timer is real-time behaviour and is not part of the state (its
PATCHes depend on the wall clock, not on the operations modelled here).
Each of the three handle operations becomes a function from the closure
state and its argument to the new state plus the remote writes it
performs. -/

structure ComposerState where
  finalized : Bool
  textStarted : Bool
  lastFlushedWordCount : Nat
  latestContent : Option (List Char)
deriving DecidableEq

/-- The closure state right after `startStreamingMessage` returns. -/
def initialComposer : ComposerState :=
  { finalized := false, textStarted := false,
    lastFlushedWordCount := 0, latestContent := none }

/-- `countWords`: `text.split(/\s+/).filter(Boolean).length` — the number
of maximal non-whitespace runs.  `inWord` records whether the previous
character was part of a run. -/
def countWordsGo : List Char → Bool → Nat
  | [], _ => 0
  | c :: rest, inWord =>
      if isJsWhitespace c then countWordsGo rest false
      else (if inWord then 0 else 1) + countWordsGo rest true

def countWords (s : List Char) : Nat := countWordsGo s false

/-- `const WORD_FLUSH_THRESHOLD = 40`. -/
def WORD_FLUSH_THRESHOLD : Nat := 40

/-- `update(content)`: returns unchanged when already finalized; otherwise
records the text, stops the spinner, and flushes (one PATCH) when at least
40 words accumulated since the last flush.  (`flush` asserts
`latestContent !== null`, which holds here as it was just assigned.) -/
def updateC (st : ComposerState) (content : List Char) :
    ComposerState × List MsgOp :=
  if st.finalized then (st, [])
  else
    let st1 := { st with textStarted := true, latestContent := some content }
    if WORD_FLUSH_THRESHOLD ≤ countWords content - st1.lastFlushedWordCount then
      ({ st1 with
          lastFlushedWordCount := countWords content
          latestContent := none },
        [MsgOp.edit content])
    else (st1, [])

/-- `finalize(content)`: sets the flag and performs the terminal writes of
`finalizeOps` — the source has no guard on `finalized` here. -/
def finalizeC (st : ComposerState) (content : List Char) :
    ComposerState × List MsgOp :=
  ({ st with finalized := true }, finalizeOps content)

/-- `cancel()`: sets the flag and deletes the placeholder message — again
with no guard on `finalized`. -/
def cancelC (st : ComposerState) : ComposerState × List MsgOp :=
  ({ st with finalized := true }, [MsgOp.delete])

/-- C2 (amended): after `finalize` or `cancel` (i.e. once
`finalized = true`), any further `update` is a complete no-op — no state
change and no remote edit.  `finalize` and `cancel` themselves are NOT
guarded: a repeated `finalize` performs its terminal writes again, and a
`cancel` after `finalize` still deletes the message. -/
theorem c2_composer_idempotence (st : ComposerState) (content : List Char)
    (h : st.finalized = true) :
    updateC st content = (st, []) ∧
    (finalizeC st content).2 = finalizeOps content ∧
    (finalizeC st content).1.finalized = true ∧
    (cancelC st).2 = [MsgOp.delete] ∧
    (cancelC st).1.finalized = true := by
  refine ⟨?_, rfl, rfl, rfl, rfl⟩
  unfold updateC
  rw [if_pos h]

/-- Witness for `c2_composer_idempotence`: the state reached by a
`finalize` on the fresh composer. -/
theorem c2_composer_idempotence_witness :
    updateC (finalizeC initialComposer smallText).1 smallText
        = ((finalizeC initialComposer smallText).1, []) ∧
    (finalizeC (finalizeC initialComposer smallText).1 smallText).2
        = finalizeOps smallText ∧
    (finalizeC (finalizeC initialComposer smallText).1 smallText).1.finalized = true ∧
    (cancelC (finalizeC initialComposer smallText).1).2 = [MsgOp.delete] ∧
    (cancelC (finalizeC initialComposer smallText).1).1.finalized = true :=
  c2_composer_idempotence (finalizeC initialComposer smallText).1 smallText (by decide)

/-- Counterexample to C2 as stated: after `finalize`, a repeated
`finalize` performs remote writes again (it re-PATCHes the message), and a
`cancel` deletes the finalized message rather than leaving it unchanged —
only `update` is guarded by the `finalized` flag. -/
theorem c2_counterexample :
    (finalizeC initialComposer smallText).1.finalized = true ∧
    (finalizeC (finalizeC initialComposer smallText).1 smallText).2 ≠ [] ∧
    (cancelC (finalizeC initialComposer smallText).1).2 = [MsgOp.delete] := by
  refine ⟨rfl, ?_, rfl⟩
  unfold finalizeC finalizeOps
  rw [if_pos (by decide)]
  simp

/-! ### src/index.ts — the event loop (claim C3)

One iteration of the `while (true)` loop of `eventLoop`, as a function of
the poll outcome.  Dispatching of the retrieved events is fire-and-forget
and does not influence the loop state, so the state is the cursor pair
`{queueId, lastEventId}`.  `fresh` stands for the result a call to
`registerQueue` would return. -/

structure LoopCursor where
  queueId : Nat
  lastEventId : Int
deriving DecidableEq

/-- Outcome of one `client.events.retrieve` call: a batch of events
(abstracted to their ids) or a thrown error with its message text. -/
inductive PollOutcome where
  | ok (eventIds : List Int)
  | err (msg : List Char)

/-- `const BACKOFF_MS = 5000`. -/
def BACKOFF_MS : Nat := 5000

/-- The distinguished queue-invalid marker tested with
`errorMsg.includes("BAD_EVENT_QUEUE_ID")`. -/
def BAD_EVENT_QUEUE_ID : List Char := "BAD_EVENT_QUEUE_ID".data

/-- JavaScript `s.includes(pat)`: `pat` occurs contiguously in `s`. -/
def jsIncludes : (s pat : List Char) → Bool
  | [], pat => pat.isPrefixOf ([] : List Char)
  | c :: rest, pat => pat.isPrefixOf (c :: rest) || jsIncludes rest pat

/-- What one loop iteration did besides dispatching events. -/
structure LoopStepResult where
  cursor : LoopCursor
  reregistered : Bool
  backoffMs : Nat
deriving DecidableEq

/-- One iteration of the `eventLoop` poll loop.  On success the cursor
advances over the batch (`lastEventId = event.id` for each event).  On an
error whose message contains `BAD_EVENT_QUEUE_ID`, the queue is
re-registered (one `registerQueue` call, no backoff, fresh cursor); on any
other error the loop sleeps `BACKOFF_MS` and retries with the unchanged
cursor. -/
def eventLoopStep (cur fresh : LoopCursor) (outcome : PollOutcome) :
    LoopStepResult :=
  match outcome with
  | PollOutcome.ok eventIds =>
      { cursor := { cur with
          lastEventId := eventIds.foldl (fun _ i => i) cur.lastEventId },
        reregistered := false, backoffMs := 0 }
  | PollOutcome.err msg =>
      if jsIncludes msg BAD_EVENT_QUEUE_ID then
        { cursor := fresh, reregistered := true, backoffMs := 0 }
      else
        { cursor := cur, reregistered := false, backoffMs := BACKOFF_MS }

/-- C3: a poll failure containing the queue-invalid marker triggers exactly
one re-registration (adopting the fresh queue id and fresh cursor) and no
backoff; any other poll failure triggers exactly one 5-second backoff and
the next poll reuses the same queue id and the same last-seen event id. -/
theorem c3_event_loop_recovery (cur fresh : LoopCursor) (msg : List Char) :
    (jsIncludes msg BAD_EVENT_QUEUE_ID = true →
      eventLoopStep cur fresh (PollOutcome.err msg) =
        { cursor := fresh, reregistered := true, backoffMs := 0 }) ∧
    (jsIncludes msg BAD_EVENT_QUEUE_ID = false →
      eventLoopStep cur fresh (PollOutcome.err msg) =
        { cursor := cur, reregistered := false, backoffMs := BACKOFF_MS }) := by
  constructor
  · intro h
    simp only [eventLoopStep, h, if_true]
  · intro h
    simp only [eventLoopStep, h, Bool.false_eq_true, if_false]

/-- Witness for `c3_event_loop_recovery` on the two concrete error
messages "Zulip API error: BAD_EVENT_QUEUE_ID" and "socket timeout". -/
theorem c3_event_loop_recovery_witness :
    (eventLoopStep ⟨7, 42⟩ ⟨8, -1⟩
        (PollOutcome.err ("Zulip API error: BAD_EVENT_QUEUE_ID").data) =
      { cursor := ⟨8, -1⟩, reregistered := true, backoffMs := 0 }) ∧
    (eventLoopStep ⟨7, 42⟩ ⟨8, -1⟩ (PollOutcome.err ("socket timeout").data) =
      { cursor := ⟨7, 42⟩, reregistered := false, backoffMs := BACKOFF_MS }) :=
  ⟨(c3_event_loop_recovery ⟨7, 42⟩ ⟨8, -1⟩
      ("Zulip API error: BAD_EVENT_QUEUE_ID").data).1 (by decide),
   (c3_event_loop_recovery ⟨7, 42⟩ ⟨8, -1⟩ ("socket timeout").data).2 (by decide)⟩


/-! ### src/bot.ts — handleMessage: eligibility gate and dispatch chain
(claims C6, C7) -/

/-- The fields of a Zulip message that `handleMessage` inspects. -/
structure BotMessage where
  type : String               -- "stream" or "private"
  senderEmail : String
  senderFullName : String
  displayRecipient : String
  subject : String
  content : String
  id : Nat
deriving DecidableEq

/-- A message event: the message plus its flags. -/
structure BotMessageEvent where
  message : BotMessage
  flags : List String
deriving DecidableEq

/-- What one service's `onMessage` did for a given message: resolved true
(claimed), resolved false (did not claim; a service without an `onMessage`
member behaves the same), or threw. -/
inductive HandlerOutcome where
  | claimed
  | passed
  | threw
deriving DecidableEq

/-- The `for (const svc of services)` loop of `handleMessage`: the index of
the first service whose `onMessage` resolves true, skipping services that
do not claim and services that throw (`catch` logs and continues). -/
def runChain (services : List (BotMessage → HandlerOutcome)) (msg : BotMessage) :
    Option Nat :=
  match services with
  | [] => none
  | h :: rest =>
      match h msg with
      | HandlerOutcome.claimed => some 0
      | _ => (runChain rest msg).map (· + 1)

/-- Overall outcome of `handleMessage` for one event. -/
inductive DispatchResult where
  | ignored                -- returned at the eligibility gate
  | claimedBy (i : Nat)    -- service i returned true; no fallback
  | fellThrough            -- no service claimed; composer + answering engine run
deriving DecidableEq

/-- `handleMessage` up to the point where either a service claims the
message or the fallback (streaming composer + `askClaude`) starts: the
three early returns, then the first-match-wins service loop. -/
def handleMessageDispatch (ev : BotMessageEvent) (botEmail : String)
    (services : List (BotMessage → HandlerOutcome)) : DispatchResult :=
  if ev.message.type ≠ "stream" then DispatchResult.ignored
  else if ev.message.senderEmail = botEmail then DispatchResult.ignored
  else if "mentioned" ∉ ev.flags then DispatchResult.ignored
  else
    match runChain services ev.message with
    | some i => DispatchResult.claimedBy i
    | none => DispatchResult.fellThrough

lemma runChain_append_claimed (msg : BotMessage)
    (pre : List (BotMessage → HandlerOutcome)) (h : BotMessage → HandlerOutcome)
    (post : List (BotMessage → HandlerOutcome))
    (hpre : ∀ g ∈ pre, g msg ≠ HandlerOutcome.claimed)
    (hc : h msg = HandlerOutcome.claimed) :
    runChain (pre ++ h :: post) msg = some pre.length := by
  induction pre with
  | nil =>
      simp only [List.nil_append, runChain, hc, List.length_nil]
  | cons g rest ih =>
      have hg : g msg ≠ HandlerOutcome.claimed := hpre g (by simp)
      have hrest : ∀ g' ∈ rest, g' msg ≠ HandlerOutcome.claimed := by
        intro g' hg'
        exact hpre g' (by simp [hg'])
      rw [List.cons_append]
      unfold runChain
      cases hgm : g msg with
      | claimed => exact absurd hgm hg
      | passed => rw [ih hrest]; rfl
      | threw => rw [ih hrest]; rfl

lemma runChain_none (msg : BotMessage) (services : List (BotMessage → HandlerOutcome))
    (hall : ∀ g ∈ services, g msg ≠ HandlerOutcome.claimed) :
    runChain services msg = none := by
  induction services with
  | nil => rfl
  | cons g rest ih =>
      have hg : g msg ≠ HandlerOutcome.claimed := hall g (by simp)
      have hrest : ∀ g' ∈ rest, g' msg ≠ HandlerOutcome.claimed := by
        intro g' hg'
        exact hall g' (by simp [hg'])
      unfold runChain
      cases hgm : g msg with
      | claimed => exact absurd hgm hg
      | passed => rw [ih hrest]; rfl
      | threw => rw [ih hrest]; rfl

/-- C6: for an eligible message, services are tried in registration order —
the first service that claims it stops the chain at its index and the
fallback answering path does not run; a service that throws behaves exactly
like one that does not claim (the chain continues); and when no service
claims, the message falls through to the streaming composer + answering
engine. -/
theorem c6_dispatch_chain (ev : BotMessageEvent) (botEmail : String)
    (htype : ev.message.type = "stream")
    (hsender : ev.message.senderEmail ≠ botEmail)
    (hflag : "mentioned" ∈ ev.flags) :
    (∀ (pre post : List (BotMessage → HandlerOutcome))
        (h : BotMessage → HandlerOutcome),
      (∀ g ∈ pre, g ev.message ≠ HandlerOutcome.claimed) →
      h ev.message = HandlerOutcome.claimed →
      handleMessageDispatch ev botEmail (pre ++ h :: post) =
        DispatchResult.claimedBy pre.length) ∧
    (∀ (g : BotMessage → HandlerOutcome)
        (rest : List (BotMessage → HandlerOutcome)),
      g ev.message = HandlerOutcome.threw →
      runChain (g :: rest) ev.message = (runChain rest ev.message).map (· + 1)) ∧
    (∀ services : List (BotMessage → HandlerOutcome),
      (∀ g ∈ services, g ev.message ≠ HandlerOutcome.claimed) →
      handleMessageDispatch ev botEmail services = DispatchResult.fellThrough) := by
  have hgate : ∀ services, handleMessageDispatch ev botEmail services =
      match runChain services ev.message with
      | some i => DispatchResult.claimedBy i
      | none => DispatchResult.fellThrough := by
    intro services
    unfold handleMessageDispatch
    rw [if_neg (by simp [htype]), if_neg hsender, if_neg (by simp [hflag])]
  refine ⟨?_, ?_, ?_⟩
  · intro pre post h hpre hc
    rw [hgate, runChain_append_claimed ev.message pre h post hpre hc]
  · intro g rest hg
    conv_lhs => rw [runChain]
    rw [hg]
  · intro services hall
    rw [hgate, runChain_none ev.message services hall]

/-- An eligible sample event: a channel message from a user, flagged as a
mention. -/
def sampleEvent : BotMessageEvent where
  message :=
    { type := "stream"
      senderEmail := "alice@example.com"
      senderFullName := "Alice"
      displayRecipient := "general"
      subject := "hello"
      content := "@bot hi"
      id := 11 }
  flags := ["mentioned"]

/-- Witness for `c6_dispatch_chain`: a chain of a throwing service, a
claiming service, and one more service behind it. -/
theorem c6_dispatch_chain_witness :
    handleMessageDispatch sampleEvent "bot@example.com"
        ([fun _ => HandlerOutcome.threw] ++
          (fun _ => HandlerOutcome.claimed) :: [fun _ => HandlerOutcome.passed]) =
      DispatchResult.claimedBy 1 ∧
    runChain ((fun _ => HandlerOutcome.threw) :: [fun _ => HandlerOutcome.passed])
        sampleEvent.message =
      (runChain [fun _ => HandlerOutcome.passed] sampleEvent.message).map (· + 1) ∧
    handleMessageDispatch sampleEvent "bot@example.com"
        [fun _ => HandlerOutcome.passed, fun _ => HandlerOutcome.threw] =
      DispatchResult.fellThrough := by
  have h := c6_dispatch_chain sampleEvent "bot@example.com" rfl
    (by intro hc; exact absurd hc (by decide)) (by decide)
  refine ⟨?_, ?_, ?_⟩
  · have hlen : ([fun _ => HandlerOutcome.threw] :
        List (BotMessage → HandlerOutcome)).length = 1 := rfl
    rw [← hlen]
    exact h.1 [fun _ => HandlerOutcome.threw] [fun _ => HandlerOutcome.passed]
      (fun _ => HandlerOutcome.claimed)
      (by intro g hg; rw [List.mem_singleton] at hg; subst hg; intro hc; cases hc)
      rfl
  · exact h.2.1 (fun _ => HandlerOutcome.threw) [fun _ => HandlerOutcome.passed] rfl
  · exact h.2.2 [fun _ => HandlerOutcome.passed, fun _ => HandlerOutcome.threw]
      (by
        intro g hg
        rw [List.mem_cons, List.mem_singleton] at hg
        rcases hg with hg | hg <;> (subst hg; intro hc; cases hc))

/-- C7: a direct (non-stream) message, a message authored by the bot
itself, or a message not flagged as a mention is ignored before the chain:
no service runs and the answering engine is never invoked. -/
theorem c7_eligibility_gate (ev : BotMessageEvent) (botEmail : String)
    (services : List (BotMessage → HandlerOutcome))
    (h : ev.message.type ≠ "stream" ∨ ev.message.senderEmail = botEmail ∨
      "mentioned" ∉ ev.flags) :
    handleMessageDispatch ev botEmail services = DispatchResult.ignored := by
  unfold handleMessageDispatch
  rcases h with h | h | h
  · rw [if_pos h]
  · by_cases ht : ev.message.type ≠ "stream"
    · rw [if_pos ht]
    · rw [if_neg ht, if_pos h]
  · by_cases ht : ev.message.type ≠ "stream"
    · rw [if_pos ht]
    · rw [if_neg ht]
      by_cases hs : ev.message.senderEmail = botEmail
      · rw [if_pos hs]
      · rw [if_neg hs, if_pos h]

/-- A direct-message event (type "private"). -/
def dmEvent : BotMessageEvent where
  message :=
    { type := "private"
      senderEmail := "alice@example.com"
      senderFullName := "Alice"
      displayRecipient := "bot"
      subject := ""
      content := "hi"
      id := 12 }
  flags := ["mentioned"]

/-- Witness for `c7_eligibility_gate`: a direct message reaches no handler
even with a claiming service installed. -/
theorem c7_eligibility_gate_witness :
    handleMessageDispatch dmEvent "bot@example.com"
      [fun _ => HandlerOutcome.claimed] = DispatchResult.ignored :=
  c7_eligibility_gate dmEvent "bot@example.com" [fun _ => HandlerOutcome.claimed]
    (Or.inl (by decide))


/-! ### src/db.ts and src/services/tasks.ts — the task lifecycle
(claims C4, C5)

The SQLite tables become lists of rows; `datetime('now')` timestamps are
abstract `Nat` parameters threaded in by the caller.  Remote reads
performed by the service (message fetch, user lookup, channel resolution)
are parameters; remote writes are returned as `TaskEffect` values. -/

structure TaskRowM where
  id : Nat
  content : String
  creatorName : String
  creatorUserId : Option Nat
  status : String                 -- "open" or "done"
  sourceChannel : String
  sourceTopic : String
  sourceMsgId : Nat
  taskChannel : Option String
  taskTopic : Option String
  taskMsgId : Option Nat
  ownTopic : Bool
  completedAt : Option Nat
  completedBy : Option String
deriving DecidableEq

instance : Inhabited TaskRowM :=
  ⟨0, "", "", none, "open", "", "", 0, none, none, none, false, none, none⟩

structure AssigneeRowM where
  taskId : Nat
  userName : String
  userId : Option Nat
deriving DecidableEq

/-- The tasks + task_assignees tables, plus the AUTOINCREMENT counter. -/
structure TasksDb where
  rows : List TaskRowM
  assignees : List AssigneeRowM
  nextId : Nat
deriving DecidableEq

/-- The row `createTask` INSERTs: status 'open', NULL card reference,
NULL completion metadata. -/
def newTaskRow (db : TasksDb) (content creatorName : String)
    (creatorUserId : Option Nat) (sourceChannel sourceTopic : String)
    (sourceMsgId : Nat) (ownTopic : Bool) : TaskRowM where
  id := db.nextId
  content := content
  creatorName := creatorName
  creatorUserId := creatorUserId
  status := "open"
  sourceChannel := sourceChannel
  sourceTopic := sourceTopic
  sourceMsgId := sourceMsgId
  taskChannel := none
  taskTopic := none
  taskMsgId := none
  ownTopic := ownTopic
  completedAt := none
  completedBy := none

/-- `createTask` of src/db.ts: INSERT, returning the new row id
(AUTOINCREMENT). -/
def createTask (db : TasksDb) (content creatorName : String)
    (creatorUserId : Option Nat) (sourceChannel sourceTopic : String)
    (sourceMsgId : Nat) (ownTopic : Bool) : TasksDb × Nat :=
  ({ db with
      rows := db.rows ++ [newTaskRow db content creatorName creatorUserId
        sourceChannel sourceTopic sourceMsgId ownTopic]
      nextId := db.nextId + 1 },
    db.nextId)

def getTaskBySourceMsgId (db : TasksDb) (msgId : Nat) : Option TaskRowM :=
  db.rows.find? (fun r => r.sourceMsgId == msgId)

def getTaskByTaskMsgId (db : TasksDb) (msgId : Nat) : Option TaskRowM :=
  db.rows.find? (fun r => r.taskMsgId == some msgId)

def updateTaskMsgRef (db : TasksDb) (taskId : Nat) (channel topic : String)
    (msgId : Nat) : TasksDb :=
  { db with rows := db.rows.map fun r =>
      if r.id = taskId then
        { r with taskChannel := some channel, taskTopic := some topic
                 taskMsgId := some msgId }
      else r }

/-- `completeTask`: SET status = 'done', completed_at = now,
completed_by = completedBy WHERE id = taskId. -/
def completeTask (db : TasksDb) (taskId : Nat) (completedBy : String)
    (now : Nat) : TasksDb :=
  { db with rows := db.rows.map fun r =>
      if r.id = taskId then
        { r with status := "done", completedAt := some now
                 completedBy := some completedBy }
      else r }

/-- `reopenTask`: SET status = 'open', completed_at = NULL,
completed_by = NULL WHERE id = taskId. -/
def reopenTask (db : TasksDb) (taskId : Nat) : TasksDb :=
  { db with rows := db.rows.map fun r =>
      if r.id = taskId then
        { r with status := "open", completedAt := none, completedBy := none }
      else r }

/-- One INSERT OR IGNORE against UNIQUE(task_id, user_id).  SQLite treats
NULL user_ids as distinct, so a row with no user id always inserts. -/
def insertAssignee (assignees : List AssigneeRowM) (taskId : Nat)
    (user : String × Option Nat) : List AssigneeRowM :=
  match user.2 with
  | none => assignees ++ [{ taskId := taskId, userName := user.1, userId := none }]
  | some uid =>
      if assignees.any fun a => a.taskId == taskId && a.userId == some uid then
        assignees
      else assignees ++ [{ taskId := taskId, userName := user.1, userId := some uid }]

/-- `addAssignees`: transactional batch of INSERT OR IGNORE. -/
def addAssignees (db : TasksDb) (taskId : Nat)
    (users : List (String × Option Nat)) : TasksDb :=
  { db with
      assignees :=
        users.foldl (fun acc u => insertAssignee acc taskId u) db.assignees }

def getAssignees (db : TasksDb) (taskId : Nat) : List AssigneeRowM :=
  db.assignees.filter fun a => a.taskId == taskId

/-- The configuration fields the tasks service reads. -/
structure ConfigM where
  tasksChannel : String
  taskEmoji : String
deriving DecidableEq

/-- `isTasksChannel`: exact (case-insensitive) match of the configured
tasks channel, or a `<prefix>-` prefix. -/
def isTasksChannelM (channelName : String) (cfg : ConfigM) : Bool :=
  let pfx := cfg.tasksChannel.toLower
  let name := channelName.toLower
  name == pfx || name.startsWith (pfx ++ "-")

/-- The data `renderTaskCard` renders: the card text is a function of
exactly these fields of the task row and its assignee rows (status emoji
and status line, quoted content, assignee mentions, creator, and the
source-message link built from the source location).  The embedding keeps
the card as this record instead of the markdown string; two cards are
equal iff `renderTaskCard` would produce the same markdown. -/
structure CardView where
  status : String
  completedBy : Option String
  content : String
  creatorName : String
  sourceChannel : String
  sourceTopic : String
  sourceMsgId : Nat
  assignees : List (String × Option Nat)
deriving DecidableEq

def cardView (t : TaskRowM) (assignees : List AssigneeRowM) : CardView :=
  { status := t.status, completedBy := t.completedBy, content := t.content
    creatorName := t.creatorName, sourceChannel := t.sourceChannel
    sourceTopic := t.sourceTopic, sourceMsgId := t.sourceMsgId
    assignees := assignees.map fun a => (a.userName, a.userId) }

/-- A remote write performed by the tasks service. -/
inductive TaskEffect where
  | sendText (channel topic text : String)
  | sendCard (channel topic : String) (card : CardView)
  | patchCard (msgId : Nat) (card : CardView)
  | addReaction (msgId : Nat) (emoji : String)
deriving DecidableEq

/-- `syncTaskMessage`: re-render and PATCH the card — a no-op when the
task has no posted card message. -/
def syncTaskMessageEff (task : TaskRowM) (assignees : List AssigneeRowM) :
    List TaskEffect :=
  match task.taskMsgId with
  | none => []
  | some mid => [TaskEffect.patchCard mid (cardView task assignees)]

/-- A user mention parsed out of the command text by `parseMentions`. -/
structure ParsedMentionM where
  userId : Nat
  userName : String
deriving DecidableEq

/-- `@_**name|id**`. -/
def mentionTag (userName : String) (userId : Nat) : String :=
  "@_**" ++ userName ++ "|" ++ toString userId ++ "**"

/-- `truncate(text, maxLen)` of src/services/tasks.ts: collapse to one
line, trim, and cut to maxLen − 1 characters plus an ellipsis. -/
def truncateM (text : String) (maxLen : Nat) : String :=
  let oneLine := String.mk (trimStart (trimEnd
    (text.data.map fun c => if c = '\n' then ' ' else c)))
  if oneLine.length ≤ maxLen then oneLine
  else String.mk (oneLine.data.take (maxLen - 1)) ++ "…"

/-- The confirmation posted in the source topic after a promotion:
`parts.join(", ")` plus the destination link. -/
def confirmText (sender : String) (mentions : List ParsedMentionM)
    (tasksChannel taskTopic : String) : String :=
  let base := "Task created by " ++ sender
  let withAssign :=
    if mentions.isEmpty then base
    else base ++ ", assigned to " ++
      String.intercalate ", " (mentions.map fun m => mentionTag m.userName m.userId)
  withAssign ++ " in #**" ++ tasksChannel ++ ">" ++ taskTopic ++ "**"

/-- `handleTaskCreation` of src/services/tasks.ts.

Remote reads are parameters: `preceding` is the message found above the
command (its id and text content, already converted from HTML), or `none`
when the topic has no preceding message; `resolvedChannel` is what
`resolveTasksChannel` returned (used only when the source channel is not
itself a tasks channel); `cardMsgId` is the id the gateway assigned to the
posted card. -/
def handleTaskCreationM (db : TasksDb) (cfg : ConfigM) (msg : BotMessage)
    (mentions : List ParsedMentionM) (ownTopic : Bool)
    (preceding : Option (Nat × String)) (resolvedChannel : String)
    (cardMsgId : Nat) : TasksDb × List TaskEffect :=
  match preceding with
  | none =>
      (db, [TaskEffect.sendText msg.displayRecipient msg.subject
        "There's no message above to promote into a task."])
  | some (targetId, targetContent) =>
      if (getTaskBySourceMsgId db targetId).isSome then
        (db, [TaskEffect.sendText msg.displayRecipient msg.subject
          "A task already exists for that message."])
      else
        let inTasksChannel := isTasksChannelM msg.displayRecipient cfg
        let tasksChannel :=
          if inTasksChannel then msg.displayRecipient else resolvedChannel
        let created := createTask db targetContent msg.senderFullName none
          msg.displayRecipient msg.subject targetId ownTopic
        let db1 := created.1
        let taskId := created.2
        let db2 :=
          if mentions.isEmpty then db1
          else addAssignees db1 taskId
            (mentions.map fun m => (m.userName, some m.userId))
        let assigneeRows := getAssignees db2 taskId
        let task := { (getTaskBySourceMsgId db2 targetId).get! with id := taskId }
        let taskTopic :=
          if ownTopic then truncateM targetContent 50
          else if inTasksChannel then msg.subject
          else msg.displayRecipient ++ " / " ++ msg.subject
        let card := cardView
          { task with taskChannel := some tasksChannel, taskTopic := some taskTopic }
          assigneeRows
        let db3 := updateTaskMsgRef db2 taskId tasksChannel taskTopic cardMsgId
        (db3,
          [TaskEffect.sendCard tasksChannel taskTopic card,
           TaskEffect.addReaction targetId cfg.taskEmoji,
           TaskEffect.sendText msg.displayRecipient msg.subject
             (confirmText msg.senderFullName mentions tasksChannel taskTopic)])

/-- A reaction event as the tasks service sees it. -/
structure ReactionEventM where
  op : String          -- "add" or "remove"
  userId : Nat
  messageId : Nat
  emojiName : String
deriving DecidableEq

/-- `tasks.onReaction` of src/services/tasks.ts: the `:check:`
complete/reopen branch followed by the promote-by-reaction branch.

Remote reads are parameters: `reactorName` is the display name resolved
for `event.user_id` (the source falls back to "Unknown"); `fetched` is the
message the reaction is on (`none` when the GET fails or returns nothing),
with `content` already converted from HTML; `resolvedChannel` and
`cardMsgId` are as in promotion by command; `now` is the completion
timestamp. -/
def tasksOnReaction (db : TasksDb) (cfg : ConfigM) (botUserId : Nat)
    (ev : ReactionEventM) (reactorName : String) (fetched : Option BotMessage)
    (resolvedChannel : String) (cardMsgId : Nat) (now : Nat) :
    TasksDb × List TaskEffect :=
  if ev.userId = botUserId then (db, [])
  else if ev.emojiName = "check" then
    match getTaskByTaskMsgId db ev.messageId with
    | none => (db, [])
    | some task =>
        let db1 :=
          if ev.op = "add" then completeTask db task.id reactorName now
          else reopenTask db task.id
        let updated :=
          { task with
              status := if ev.op = "add" then "done" else "open"
              completedBy := if ev.op = "add" then some reactorName else none
              completedAt := if ev.op = "add" then some now else none }
        (db1, syncTaskMessageEff updated (getAssignees db1 task.id))
  else if ev.op ≠ "add" then (db, [])
  else if ev.emojiName ≠ cfg.taskEmoji then (db, [])
  else
    match fetched with
    | none => (db, [])
    | some m =>
        if m.type ≠ "stream" then (db, [])
        else if (getTaskBySourceMsgId db m.id).isSome then (db, [])
        else
          let created := createTask db m.content reactorName none
            m.displayRecipient m.subject m.id false
          let db1 := created.1
          let taskId := created.2
          let db2 := addAssignees db1 taskId [(reactorName, some ev.userId)]
          let assignees := getAssignees db2 taskId
          let inTasksChannel := isTasksChannelM m.displayRecipient cfg
          let tasksChannel :=
            if inTasksChannel then m.displayRecipient else resolvedChannel
          let taskTopic :=
            if inTasksChannel then m.subject
            else m.displayRecipient ++ " / " ++ m.subject
          let task := (getTaskBySourceMsgId db2 m.id).get!
          let card := cardView
            { task with taskChannel := some tasksChannel, taskTopic := some taskTopic }
            assignees
          let db3 := updateTaskMsgRef db2 taskId tasksChannel taskTopic cardMsgId
          (db3,
            [TaskEffect.sendCard tasksChannel taskTopic card,
             TaskEffect.sendText m.displayRecipient m.subject
               ("Task created by " ++ reactorName ++ ", assigned to " ++
                mentionTag reactorName ev.userId ++ " in #**" ++ tasksChannel ++
                ">" ++ taskTopic ++ "**")])



/-! ### Claim C4 — at most one Task per source message id -/

/-- The UNIQUE(source_msg_id) constraint of the tasks table: no two rows
share a source message id. -/
def UniqueSourceIds (db : TasksDb) : Prop :=
  (db.rows.map (fun r => r.sourceMsgId)).Nodup

lemma findCongr {α : Type} (p q : α → Bool) (l : List α) (h : ∀ a, p a = q a) :
    l.find? p = l.find? q := by
  induction l with
  | nil => rfl
  | cons a rest ih =>
      by_cases ha : p a = true
      · rw [List.find?_cons_of_pos _ ha, List.find?_cons_of_pos _ ((h a).symm.trans ha)]
      · rw [List.find?_cons_of_neg _ ha,
          List.find?_cons_of_neg _ (by rw [← h a]; exact ha), ih]

lemma map_field_eq {β : Type} (f : TaskRowM → TaskRowM) (g : TaskRowM → β)
    (hf : ∀ r, g (f r) = g r) (rows : List TaskRowM) :
    (rows.map f).map g = rows.map g := by
  induction rows with
  | nil => rfl
  | cons r rest ih => simp only [List.map_cons, hf, ih]

lemma sourceId_not_mem_of_none (db : TasksDb) (msgId : Nat)
    (h : getTaskBySourceMsgId db msgId = none) :
    msgId ∉ db.rows.map (fun r => r.sourceMsgId) := by
  unfold getTaskBySourceMsgId at h
  rw [List.find?_eq_none] at h
  intro hmem
  obtain ⟨r, hr, hrid⟩ := List.mem_map.mp hmem
  exact h r hr (by simp [hrid])

lemma rows_addAssignees (db : TasksDb) (taskId : Nat)
    (users : List (String × Option Nat)) :
    (addAssignees db taskId users).rows = db.rows := rfl

lemma sourceIds_updateTaskMsgRef (db : TasksDb) (taskId : Nat)
    (channel topic : String) (msgId : Nat) :
    (updateTaskMsgRef db taskId channel topic msgId).rows.map (fun r => r.sourceMsgId)
      = db.rows.map (fun r => r.sourceMsgId) := by
  unfold updateTaskMsgRef
  exact map_field_eq _ _ (fun r => by split <;> rfl) db.rows

lemma sourceIds_completeTask (db : TasksDb) (taskId : Nat) (b : String) (now : Nat) :
    (completeTask db taskId b now).rows.map (fun r => r.sourceMsgId)
      = db.rows.map (fun r => r.sourceMsgId) := by
  unfold completeTask
  exact map_field_eq _ _ (fun r => by split <;> rfl) db.rows

lemma sourceIds_reopenTask (db : TasksDb) (taskId : Nat) :
    (reopenTask db taskId).rows.map (fun r => r.sourceMsgId)
      = db.rows.map (fun r => r.sourceMsgId) := by
  unfold reopenTask
  exact map_field_eq _ _ (fun r => by split <;> rfl) db.rows

lemma uniqueSourceIds_of_map_eq (db' db : TasksDb)
    (h : db'.rows.map (fun r => r.sourceMsgId) = db.rows.map (fun r => r.sourceMsgId))
    (hU : UniqueSourceIds db) : UniqueSourceIds db' := by
  unfold UniqueSourceIds at *
  rw [h]
  exact hU

/-- After a fresh insertion the source-id column gains exactly the new id. -/
lemma uniqueSourceIds_insert (db newDb : TasksDb) (srcId : Nat)
    (hrows : newDb.rows.map (fun r => r.sourceMsgId)
      = db.rows.map (fun r => r.sourceMsgId) ++ [srcId])
    (hnone : getTaskBySourceMsgId db srcId = none)
    (hU : UniqueSourceIds db) : UniqueSourceIds newDb := by
  unfold UniqueSourceIds at *
  rw [hrows, List.nodup_append]
  refine ⟨hU, List.nodup_singleton _, ?_⟩
  intro a ha hb
  rw [List.mem_singleton] at hb
  exact sourceId_not_mem_of_none db srcId hnone (hb ▸ ha)

lemma handleTaskCreationM_dup (db : TasksDb) (cfg : ConfigM) (msg : BotMessage)
    (mentions : List ParsedMentionM) (ownTopic : Bool) (targetId : Nat)
    (targetContent resolved : String) (cardId : Nat)
    (h : (getTaskBySourceMsgId db targetId).isSome = true) :
    handleTaskCreationM db cfg msg mentions ownTopic (some (targetId, targetContent))
        resolved cardId
      = (db, [TaskEffect.sendText msg.displayRecipient msg.subject
          "A task already exists for that message."]) := by
  simp only [handleTaskCreationM, h, if_true]

lemma handleTaskCreationM_preserves (db : TasksDb) (cfg : ConfigM)
    (msg : BotMessage) (mentions : List ParsedMentionM) (ownTopic : Bool)
    (preceding : Option (Nat × String)) (resolved : String) (cardId : Nat)
    (hU : UniqueSourceIds db) :
    UniqueSourceIds (handleTaskCreationM db cfg msg mentions ownTopic
      preceding resolved cardId).1 := by
  cases preceding with
  | none => exact hU
  | some pr =>
      obtain ⟨targetId, targetContent⟩ := pr
      by_cases hdup : (getTaskBySourceMsgId db targetId).isSome = true
      · rw [handleTaskCreationM_dup db cfg msg mentions ownTopic targetId
          targetContent resolved cardId hdup]
        exact hU
      · have hnone : getTaskBySourceMsgId db targetId = none := by
          cases hfind : getTaskBySourceMsgId db targetId with
          | none => rfl
          | some t => exact absurd (by rw [hfind]; rfl) hdup
        simp only [handleTaskCreationM, hnone, Option.isSome_none,
          Bool.false_eq_true, if_false]
        apply uniqueSourceIds_insert db _ targetId _ hnone hU
        rw [sourceIds_updateTaskMsgRef]
        have hrows2 : (if mentions.isEmpty then
            (createTask db targetContent msg.senderFullName none
              msg.displayRecipient msg.subject targetId ownTopic).1
          else addAssignees
            (createTask db targetContent msg.senderFullName none
              msg.displayRecipient msg.subject targetId ownTopic).1
            (createTask db targetContent msg.senderFullName none
              msg.displayRecipient msg.subject targetId ownTopic).2
            (mentions.map fun m => (m.userName, some m.userId))).rows
          = db.rows ++ [newTaskRow db targetContent msg.senderFullName none
              msg.displayRecipient msg.subject targetId ownTopic] := by
          split <;> rfl
        rw [hrows2, List.map_append]
        rfl

lemma tasksOnReaction_promote_dup (db : TasksDb) (cfg : ConfigM) (botUserId : Nat)
    (ev : ReactionEventM) (reactorName : String) (m : BotMessage)
    (resolved : String) (cardId now : Nat)
    (hu : ev.userId ≠ botUserId) (hcheck : ev.emojiName ≠ "check")
    (hop : ev.op = "add") (hemoji : ev.emojiName = cfg.taskEmoji)
    (htype : m.type = "stream")
    (hdup : (getTaskBySourceMsgId db m.id).isSome = true) :
    tasksOnReaction db cfg botUserId ev reactorName (some m) resolved cardId now
      = (db, []) := by
  simp only [tasksOnReaction, if_neg hu, if_neg hcheck]
  rw [if_neg (by simp [hop])]
  rw [if_neg (by simp [hemoji])]
  rw [if_neg (by simp [htype]), if_pos hdup]

lemma tasksOnReaction_preserves (db : TasksDb) (cfg : ConfigM) (botUserId : Nat)
    (ev : ReactionEventM) (reactorName : String) (fetched : Option BotMessage)
    (resolved : String) (cardId now : Nat)
    (hU : UniqueSourceIds db) :
    UniqueSourceIds (tasksOnReaction db cfg botUserId ev reactorName fetched
      resolved cardId now).1 := by
  unfold tasksOnReaction
  by_cases h1 : ev.userId = botUserId
  · rw [if_pos h1]; exact hU
  rw [if_neg h1]
  by_cases h2 : ev.emojiName = "check"
  · rw [if_pos h2]
    cases hfind : getTaskByTaskMsgId db ev.messageId with
    | none => exact hU
    | some task =>
        by_cases hop : ev.op = "add"
        · simp only [hop, if_true, if_pos]
          exact uniqueSourceIds_of_map_eq _ db
            (sourceIds_completeTask db task.id reactorName now) hU
        · simp only [if_neg hop]
          exact uniqueSourceIds_of_map_eq _ db (sourceIds_reopenTask db task.id) hU
  rw [if_neg h2]
  by_cases h3 : ev.op ≠ "add"
  · rw [if_pos h3]; exact hU
  rw [if_neg h3]
  by_cases h4 : ev.emojiName ≠ cfg.taskEmoji
  · rw [if_pos h4]; exact hU
  rw [if_neg h4]
  cases fetched with
  | none => exact hU
  | some m =>
      dsimp only
      by_cases h5 : m.type ≠ "stream"
      · rw [if_pos h5]; exact hU
      rw [if_neg h5]
      by_cases h6 : (getTaskBySourceMsgId db m.id).isSome = true
      · rw [if_pos h6]; exact hU
      rw [if_neg h6]
      have hnone : getTaskBySourceMsgId db m.id = none := by
        cases hfind : getTaskBySourceMsgId db m.id with
        | none => rfl
        | some t => exact absurd (by rw [hfind]; rfl) h6
      apply uniqueSourceIds_insert db _ m.id _ hnone hU
      rw [sourceIds_updateTaskMsgRef, rows_addAssignees]
      show (createTask db m.content reactorName none m.displayRecipient m.subject
          m.id false).1.rows.map (fun r => r.sourceMsgId) = _
      unfold createTask
      rw [List.map_append]
      rfl


/-- C4: at most one Task ever exists per source message id.  A second
explicit promotion of an already-promoted message changes nothing and is
reported back as a duplicate; the promote-emoji reaction on an
already-promoted message is a complete no-op (no state change, no
messages); and both promotion paths preserve the uniqueness invariant. -/
theorem c4_one_task_per_source :
    (∀ (db : TasksDb) (cfg : ConfigM) (msg : BotMessage)
        (mentions : List ParsedMentionM) (ownTopic : Bool) (targetId : Nat)
        (targetContent resolved : String) (cardId : Nat),
      (getTaskBySourceMsgId db targetId).isSome = true →
      handleTaskCreationM db cfg msg mentions ownTopic
          (some (targetId, targetContent)) resolved cardId
        = (db, [TaskEffect.sendText msg.displayRecipient msg.subject
            "A task already exists for that message."])) ∧
    (∀ (db : TasksDb) (cfg : ConfigM) (botUserId : Nat) (ev : ReactionEventM)
        (reactorName : String) (m : BotMessage) (resolved : String)
        (cardId now : Nat),
      ev.userId ≠ botUserId → ev.emojiName ≠ "check" → ev.op = "add" →
      ev.emojiName = cfg.taskEmoji → m.type = "stream" →
      (getTaskBySourceMsgId db m.id).isSome = true →
      tasksOnReaction db cfg botUserId ev reactorName (some m) resolved cardId now
        = (db, [])) ∧
    (∀ (db : TasksDb) (cfg : ConfigM) (msg : BotMessage)
        (mentions : List ParsedMentionM) (ownTopic : Bool)
        (preceding : Option (Nat × String)) (resolved : String) (cardId : Nat),
      UniqueSourceIds db →
      UniqueSourceIds (handleTaskCreationM db cfg msg mentions ownTopic
        preceding resolved cardId).1) ∧
    (∀ (db : TasksDb) (cfg : ConfigM) (botUserId : Nat) (ev : ReactionEventM)
        (reactorName : String) (fetched : Option BotMessage) (resolved : String)
        (cardId now : Nat),
      UniqueSourceIds db →
      UniqueSourceIds (tasksOnReaction db cfg botUserId ev reactorName fetched
        resolved cardId now).1) :=
  ⟨fun db cfg msg mentions ownTopic targetId targetContent resolved cardId h =>
      handleTaskCreationM_dup db cfg msg mentions ownTopic targetId targetContent
        resolved cardId h,
   fun db cfg botUserId ev reactorName m resolved cardId now hu hcheck hop hemoji
        htype hdup =>
      tasksOnReaction_promote_dup db cfg botUserId ev reactorName m resolved
        cardId now hu hcheck hop hemoji htype hdup,
   fun db cfg msg mentions ownTopic preceding resolved cardId hU =>
      handleTaskCreationM_preserves db cfg msg mentions ownTopic preceding
        resolved cardId hU,
   fun db cfg botUserId ev reactorName fetched resolved cardId now hU =>
      tasksOnReaction_preserves db cfg botUserId ev reactorName fetched resolved
        cardId now hU⟩

/-- Sample configuration: tasks channel prefix "tasks", promote emoji
"clipboard". -/
def cfg0 : ConfigM := ⟨"tasks", "clipboard"⟩

/-- An already-promoted task row for source message 100, with a rendered
card at message 200. -/
def task0 : TaskRowM where
  id := 1
  content := "please fix the build"
  creatorName := "Alice"
  creatorUserId := none
  status := "open"
  sourceChannel := "general"
  sourceTopic := "ci"
  sourceMsgId := 100
  taskChannel := some "tasks-general"
  taskTopic := some "general / ci"
  taskMsgId := some 200
  ownTopic := false
  completedAt := none
  completedBy := none

def db0 : TasksDb := ⟨[task0], [⟨1, "Bob", some 7⟩], 2⟩

/-- The stream message with id 100 (already promoted as `task0`). -/
def promoMsg : BotMessage where
  type := "stream"
  senderEmail := "carol@example.com"
  senderFullName := "Carol"
  displayRecipient := "general"
  subject := "ci"
  content := "please fix the build"
  id := 100

/-- A promote-emoji reaction by user 7 on message 100. -/
def evPromote : ReactionEventM := ⟨"add", 7, 100, "clipboard"⟩

/-- Witness for `c4_one_task_per_source` on a one-task database. -/
theorem c4_one_task_per_source_witness :
    handleTaskCreationM db0 cfg0 promoMsg [] false (some (100, "please fix the build"))
        "tasks-general" 300
      = (db0, [TaskEffect.sendText promoMsg.displayRecipient promoMsg.subject
          "A task already exists for that message."]) ∧
    tasksOnReaction db0 cfg0 99 evPromote "Bob" (some promoMsg) "tasks-general" 300 5
      = (db0, []) ∧
    UniqueSourceIds (handleTaskCreationM db0 cfg0 promoMsg [] false
      (some (101, "new item")) "tasks-general" 300).1 ∧
    UniqueSourceIds (tasksOnReaction db0 cfg0 99 evPromote "Bob" none
      "tasks-general" 300 5).1 :=
  ⟨c4_one_task_per_source.1 db0 cfg0 promoMsg [] false 100 "please fix the build"
      "tasks-general" 300 (by decide),
   c4_one_task_per_source.2.1 db0 cfg0 99 evPromote "Bob" promoMsg "tasks-general"
      300 5 (by decide) (by decide) (by decide) (by decide) (by decide) (by decide),
   c4_one_task_per_source.2.2.1 db0 cfg0 promoMsg [] false (some (101, "new item"))
      "tasks-general" 300 (by unfold UniqueSourceIds; decide),
   c4_one_task_per_source.2.2.2 db0 cfg0 99 evPromote "Bob" none "tasks-general"
      300 5 (by unfold UniqueSourceIds; decide)⟩


/-! ### Claim C5 — completion toggling on the task card -/

/-- SELECT the task row by primary key. -/
def findTaskById (db : TasksDb) (taskId : Nat) : Option TaskRowM :=
  db.rows.find? (fun r => r.id == taskId)

/-- Number of card PATCHes (re-renders) among the emitted effects. -/
def numPatchCards (effs : List TaskEffect) : Nat :=
  effs.countP fun e =>
    match e with | TaskEffect.patchCard _ _ => true | _ => false

lemma find?_map_pred (rows : List TaskRowM) (f : TaskRowM → TaskRowM)
    (p : TaskRowM → Bool) (hp : ∀ r, p (f r) = p r) :
    (rows.map f).find? p = (rows.find? p).map f := by
  rw [List.find?_map]
  congr 1
  exact findCongr _ _ rows (fun a => hp a)

lemma getTaskByTaskMsgId_completeTask (db : TasksDb) (taskId : Nat) (b : String)
    (now cardMid : Nat) :
    getTaskByTaskMsgId (completeTask db taskId b now) cardMid
      = (getTaskByTaskMsgId db cardMid).map (fun r =>
          if r.id = taskId then
            { r with status := "done", completedAt := some now, completedBy := some b }
          else r) := by
  show ((db.rows.map fun r =>
      if r.id = taskId then
        { r with status := "done", completedAt := some now, completedBy := some b }
      else r).find? fun r => r.taskMsgId == some cardMid) = _
  rw [find?_map_pred _ _ _ (fun r => by split <;> rfl)]
  rfl

lemma getTaskByTaskMsgId_reopenTask (db : TasksDb) (taskId cardMid : Nat) :
    getTaskByTaskMsgId (reopenTask db taskId) cardMid
      = (getTaskByTaskMsgId db cardMid).map (fun r =>
          if r.id = taskId then
            { r with status := "open", completedAt := none, completedBy := none }
          else r) := by
  show ((db.rows.map fun r =>
      if r.id = taskId then
        { r with status := "open", completedAt := none, completedBy := none }
      else r).find? fun r => r.taskMsgId == some cardMid) = _
  rw [find?_map_pred _ _ _ (fun r => by split <;> rfl)]
  rfl

lemma findTaskById_completeTask (db : TasksDb) (taskId : Nat) (b : String)
    (now i : Nat) :
    findTaskById (completeTask db taskId b now) i
      = (findTaskById db i).map (fun r =>
          if r.id = taskId then
            { r with status := "done", completedAt := some now, completedBy := some b }
          else r) := by
  show ((db.rows.map fun r =>
      if r.id = taskId then
        { r with status := "done", completedAt := some now, completedBy := some b }
      else r).find? fun r => r.id == i) = _
  rw [find?_map_pred _ _ _ (fun r => by split <;> rfl)]
  rfl

lemma findTaskById_reopenTask (db : TasksDb) (taskId i : Nat) :
    findTaskById (reopenTask db taskId) i
      = (findTaskById db i).map (fun r =>
          if r.id = taskId then
            { r with status := "open", completedAt := none, completedBy := none }
          else r) := by
  show ((db.rows.map fun r =>
      if r.id = taskId then
        { r with status := "open", completedAt := none, completedBy := none }
      else r).find? fun r => r.id == i) = _
  rw [find?_map_pred _ _ _ (fun r => by split <;> rfl)]
  rfl

/-- With distinct primary keys, the row lookup of a present row is the row
itself. -/
lemma findTaskById_eq (db : TasksDb) (task : TaskRowM)
    (hids : (db.rows.map (fun r => r.id)).Nodup) (hmem : task ∈ db.rows) :
    findTaskById db task.id = some task := by
  unfold findTaskById
  have h : ∀ rows : List TaskRowM, (rows.map (fun r => r.id)).Nodup →
      task ∈ rows → rows.find? (fun r => r.id == task.id) = some task := by
    intro rows
    induction rows with
    | nil => intro _ hmem2; cases hmem2
    | cons r rest ih =>
        intro hnd hmem2
        simp only [List.map_cons, List.nodup_cons] at hnd
        by_cases hr : r.id = task.id
        · rw [List.find?_cons_of_pos _ (by simp [hr])]
          rcases List.mem_cons.mp hmem2 with hm | hm
          · rw [hm]
          · exact absurd (hr ▸ List.mem_map_of_mem (fun r => r.id) hm) hnd.1
        · rw [List.find?_cons_of_neg _ (by simp [hr])]
          rcases List.mem_cons.mp hmem2 with hm | hm
          · exact absurd (by rw [hm]) hr
          · exact ih hnd.2 hm
  exact h db.rows hids hmem

lemma ids_completeTask (db : TasksDb) (taskId : Nat) (b : String) (now : Nat) :
    (completeTask db taskId b now).rows.map (fun r => r.id)
      = db.rows.map (fun r => r.id) := by
  unfold completeTask
  exact map_field_eq _ _ (fun r => by split <;> rfl) db.rows

/-- One `:check:` reaction add by a non-bot user on a tracked card:
complete the task and re-render the card once. -/
lemma tasksOnReaction_check_add (db : TasksDb) (cfg : ConfigM)
    (botUserId u cardMid : Nat) (task : TaskRowM) (reactor : String)
    (fetched : Option BotMessage) (resolved : String) (cid now : Nat)
    (hu : u ≠ botUserId)
    (hfind : getTaskByTaskMsgId db cardMid = some task)
    (hmid : task.taskMsgId = some cardMid) :
    tasksOnReaction db cfg botUserId ⟨"add", u, cardMid, "check"⟩ reactor
        fetched resolved cid now
      = (completeTask db task.id reactor now,
         [TaskEffect.patchCard cardMid (cardView
           { task with
               status := "done"
               completedBy := some reactor
               completedAt := some now }
           (getAssignees db task.id))]) := by
  simp only [tasksOnReaction, if_neg hu, hfind, reduceIte]
  unfold syncTaskMessageEff
  rw [show ({ task with
      status := "done"
      completedBy := some reactor
      completedAt := some now } : TaskRowM).taskMsgId = some cardMid from hmid]
  rfl

/-- One `:check:` reaction removal by a non-bot user on a tracked card:
reopen the task and re-render the card once. -/
lemma tasksOnReaction_check_remove (db : TasksDb) (cfg : ConfigM)
    (botUserId u cardMid : Nat) (task : TaskRowM) (reactor : String)
    (fetched : Option BotMessage) (resolved : String) (cid now : Nat)
    (hu : u ≠ botUserId)
    (hfind : getTaskByTaskMsgId db cardMid = some task)
    (hmid : task.taskMsgId = some cardMid) :
    tasksOnReaction db cfg botUserId ⟨"remove", u, cardMid, "check"⟩ reactor
        fetched resolved cid now
      = (reopenTask db task.id,
         [TaskEffect.patchCard cardMid (cardView
           { task with status := "open", completedBy := none, completedAt := none }
           (getAssignees db task.id))]) := by
  simp only [tasksOnReaction, if_neg hu, hfind, reduceIte]
  unfold syncTaskMessageEff
  rw [show ({ task with
      status := "open"
      completedBy := none
      completedAt := none } : TaskRowM).taskMsgId = some cardMid from hmid]
  rfl


/-- C5: on a task whose rendered card is message `cardMid`, the `:check:`
reaction sequence add, remove, add by a non-bot user drives the persisted
status open → done → open → done — each add records the completion
timestamp and the completer, each removal clears both — and every toggle
emits exactly one re-render (PATCH) of the task card. -/
theorem c5_completion_toggle (db : TasksDb) (cfg : ConfigM)
    (botUserId u cardMid : Nat) (task : TaskRowM) (reactor : String)
    (fetched : Option BotMessage) (resolved : String) (cid now1 now2 now3 : Nat)
    (hids : (db.rows.map (fun r => r.id)).Nodup)
    (hfind : getTaskByTaskMsgId db cardMid = some task)
    (hstatus : task.status = "open")
    (hu : u ≠ botUserId) :
    findTaskById (tasksOnReaction db cfg botUserId ⟨"add", u, cardMid, "check"⟩
        reactor fetched resolved cid now1).1 task.id
      = some { task with status := "done", completedAt := some now1, completedBy := some reactor } ∧
    numPatchCards (tasksOnReaction db cfg botUserId ⟨"add", u, cardMid, "check"⟩
        reactor fetched resolved cid now1).2 = 1 ∧
    findTaskById (tasksOnReaction
        (tasksOnReaction db cfg botUserId ⟨"add", u, cardMid, "check"⟩
          reactor fetched resolved cid now1).1
        cfg botUserId ⟨"remove", u, cardMid, "check"⟩
        reactor fetched resolved cid now2).1 task.id
      = some { task with status := "open", completedAt := none, completedBy := none } ∧
    numPatchCards (tasksOnReaction
        (tasksOnReaction db cfg botUserId ⟨"add", u, cardMid, "check"⟩
          reactor fetched resolved cid now1).1
        cfg botUserId ⟨"remove", u, cardMid, "check"⟩
        reactor fetched resolved cid now2).2 = 1 ∧
    findTaskById (tasksOnReaction (tasksOnReaction
        (tasksOnReaction db cfg botUserId ⟨"add", u, cardMid, "check"⟩
          reactor fetched resolved cid now1).1
        cfg botUserId ⟨"remove", u, cardMid, "check"⟩
        reactor fetched resolved cid now2).1
        cfg botUserId ⟨"add", u, cardMid, "check"⟩
        reactor fetched resolved cid now3).1 task.id
      = some { task with status := "done", completedAt := some now3, completedBy := some reactor } ∧
    numPatchCards (tasksOnReaction (tasksOnReaction
        (tasksOnReaction db cfg botUserId ⟨"add", u, cardMid, "check"⟩
          reactor fetched resolved cid now1).1
        cfg botUserId ⟨"remove", u, cardMid, "check"⟩
        reactor fetched resolved cid now2).1
        cfg botUserId ⟨"add", u, cardMid, "check"⟩
        reactor fetched resolved cid now3).2 = 1 := by
  have hmid : task.taskMsgId = some cardMid := by
    have hbeq := List.find?_some hfind
    simpa using hbeq
  have hmem : task ∈ db.rows := List.mem_of_find?_eq_some hfind
  -- step 1: add
  have e1 := tasksOnReaction_check_add db cfg botUserId u cardMid task reactor
    fetched resolved cid now1 hu hfind hmid
  have hfid0 : findTaskById db task.id = some task := findTaskById_eq db task hids hmem
  have hfid1 : findTaskById (completeTask db task.id reactor now1) task.id
      = some { task with status := "done", completedAt := some now1, completedBy := some reactor } := by
    rw [findTaskById_completeTask, hfid0, Option.map_some', if_pos rfl]
  have hfind1 : getTaskByTaskMsgId (completeTask db task.id reactor now1) cardMid
      = some { task with status := "done", completedAt := some now1, completedBy := some reactor } := by
    rw [getTaskByTaskMsgId_completeTask, hfind, Option.map_some', if_pos rfl]
  -- step 2: remove, on the completed row
  have e2 := tasksOnReaction_check_remove (completeTask db task.id reactor now1)
    cfg botUserId u cardMid
    { task with status := "done", completedAt := some now1, completedBy := some reactor }
    reactor fetched resolved cid now2 hu hfind1 hmid
  have hfid2 : findTaskById (reopenTask (completeTask db task.id reactor now1)
        task.id) task.id
      = some { task with status := "open", completedAt := none, completedBy := none } := by
    rw [findTaskById_reopenTask, hfid1, Option.map_some', if_pos rfl]
  have hfind2 : getTaskByTaskMsgId (reopenTask (completeTask db task.id reactor now1)
        task.id) cardMid
      = some { task with status := "open", completedAt := none, completedBy := none } := by
    rw [getTaskByTaskMsgId_reopenTask, hfind1, Option.map_some', if_pos rfl]
  -- step 3: add again, on the reopened row
  have e3 := tasksOnReaction_check_add (reopenTask
      (completeTask db task.id reactor now1) task.id)
    cfg botUserId u cardMid
    { task with status := "open", completedAt := none, completedBy := none }
    reactor fetched resolved cid now3 hu hfind2 hmid
  have hfid3 : findTaskById (completeTask (reopenTask
        (completeTask db task.id reactor now1) task.id) task.id reactor now3) task.id
      = some { task with status := "done", completedAt := some now3, completedBy := some reactor } := by
    rw [findTaskById_completeTask, hfid2, Option.map_some', if_pos rfl]
  refine ⟨?_, ?_, ?_, ?_, ?_, ?_⟩
  · rw [e1]
    exact hfid1
  · rw [e1]
    rfl
  · rw [e1]
    rw [show ((completeTask db task.id reactor now1,
        [TaskEffect.patchCard cardMid (cardView
          { task with
              status := "done"
              completedBy := some reactor
              completedAt := some now1 }
          (getAssignees db task.id))]).1) = completeTask db task.id reactor now1
      from rfl]
    rw [e2]
    exact hfid2
  · rw [e1]
    rw [show ((completeTask db task.id reactor now1,
        [TaskEffect.patchCard cardMid (cardView
          { task with
              status := "done"
              completedBy := some reactor
              completedAt := some now1 }
          (getAssignees db task.id))]).1) = completeTask db task.id reactor now1
      from rfl]
    rw [e2]
    rfl
  · rw [e1]
    rw [show ((completeTask db task.id reactor now1,
        [TaskEffect.patchCard cardMid (cardView
          { task with
              status := "done"
              completedBy := some reactor
              completedAt := some now1 }
          (getAssignees db task.id))]).1) = completeTask db task.id reactor now1
      from rfl]
    rw [e2]
    rw [show ((reopenTask (completeTask db task.id reactor now1) task.id,
        [TaskEffect.patchCard cardMid (cardView
          { task with
              status := "open"
              completedBy := none
              completedAt := none }
          (getAssignees (completeTask db task.id reactor now1) task.id))]).1)
      = reopenTask (completeTask db task.id reactor now1) task.id from rfl]
    rw [e3]
    exact hfid3
  · rw [e1]
    rw [show ((completeTask db task.id reactor now1,
        [TaskEffect.patchCard cardMid (cardView
          { task with
              status := "done"
              completedBy := some reactor
              completedAt := some now1 }
          (getAssignees db task.id))]).1) = completeTask db task.id reactor now1
      from rfl]
    rw [e2]
    rw [show ((reopenTask (completeTask db task.id reactor now1) task.id,
        [TaskEffect.patchCard cardMid (cardView
          { task with
              status := "open"
              completedBy := none
              completedAt := none }
          (getAssignees (completeTask db task.id reactor now1) task.id))]).1)
      = reopenTask (completeTask db task.id reactor now1) task.id from rfl]
    rw [e3]
    rfl


/-- Witness for `c5_completion_toggle` on the one-task database `db0`
(card message 200), reacted to by user 7. -/
theorem c5_completion_toggle_witness :
    findTaskById (tasksOnReaction db0 cfg0 99 ⟨"add", 7, 200, "check"⟩
        "Dana" none "x" 0 1).1 task0.id
      = some { task0 with status := "done", completedAt := some 1, completedBy := some "Dana" } ∧
    numPatchCards (tasksOnReaction db0 cfg0 99 ⟨"add", 7, 200, "check"⟩
        "Dana" none "x" 0 1).2 = 1 ∧
    findTaskById (tasksOnReaction
        (tasksOnReaction db0 cfg0 99 ⟨"add", 7, 200, "check"⟩ "Dana" none "x" 0 1).1
        cfg0 99 ⟨"remove", 7, 200, "check"⟩ "Dana" none "x" 0 2).1 task0.id
      = some { task0 with status := "open", completedAt := none, completedBy := none } ∧
    numPatchCards (tasksOnReaction
        (tasksOnReaction db0 cfg0 99 ⟨"add", 7, 200, "check"⟩ "Dana" none "x" 0 1).1
        cfg0 99 ⟨"remove", 7, 200, "check"⟩ "Dana" none "x" 0 2).2 = 1 ∧
    findTaskById (tasksOnReaction (tasksOnReaction
        (tasksOnReaction db0 cfg0 99 ⟨"add", 7, 200, "check"⟩ "Dana" none "x" 0 1).1
        cfg0 99 ⟨"remove", 7, 200, "check"⟩ "Dana" none "x" 0 2).1
        cfg0 99 ⟨"add", 7, 200, "check"⟩ "Dana" none "x" 0 3).1 task0.id
      = some { task0 with status := "done", completedAt := some 3, completedBy := some "Dana" } ∧
    numPatchCards (tasksOnReaction (tasksOnReaction
        (tasksOnReaction db0 cfg0 99 ⟨"add", 7, 200, "check"⟩ "Dana" none "x" 0 1).1
        cfg0 99 ⟨"remove", 7, 200, "check"⟩ "Dana" none "x" 0 2).1
        cfg0 99 ⟨"add", 7, 200, "check"⟩ "Dana" none "x" 0 3).2 = 1 :=
  c5_completion_toggle db0 cfg0 99 7 200 task0 "Dana" none "x" 0 1 2 3
    (by decide) (by decide) (by decide) (by decide)


/-! ### src/services/dashboards.ts — startup recovery (claim C8)

The in-memory timer map becomes the list of row ids holding an armed
recurring timer; an immediate tick fired by `startTimer(row, ctx, true)`
is recorded as the row id in the emitted tick list. -/

structure DashRowM where
  id : Nat
  name : String
  channel : String
  topic : String
  msgId : Nat
  intervalMs : Nat
  params : String
  bootstrapped : Nat
deriving DecidableEq

/-- The scheduler's state: the module-level `timers` map (as the set of
row ids with an armed interval) and the persisted dashboards table. -/
structure SchedState where
  timers : List Nat
  rows : List DashRowM
deriving DecidableEq

/-- `deleteDashboard` of src/db.ts: DELETE FROM dashboards WHERE id = ?. -/
def deleteDashboardM (st : SchedState) (rowId : Nat) : SchedState :=
  { st with rows := st.rows.filter fun r => ! (r.id == rowId) }

/-- `startTimer(row, ctx, immediate)`: a guard against a second timer for
the same row, one optional immediate tick, then `timers.set(row.id, ...)`. -/
def startTimerM (st : SchedState) (row : DashRowM) (immediate : Bool) :
    SchedState × List Nat :=
  if row.id ∈ st.timers then (st, [])
  else ({ st with timers := st.timers ++ [row.id] },
    if immediate then [row.id] else [])

/-- One iteration of the loop in `dashboards.init`: an orphaned row (name
unknown to the registry) is deleted and skipped; otherwise
`startTimer(row, ctx, true)`. -/
def initStep (registry : List String) (acc : SchedState × List Nat)
    (row : DashRowM) : SchedState × List Nat :=
  if row.name ∈ registry then
    ((startTimerM acc.1 row true).1, acc.2 ++ (startTimerM acc.1 row true).2)
  else (deleteDashboardM acc.1 row.id, acc.2)

/-- `dashboards.init`: iterate over the persisted rows
(`getActiveDashboards()`), returning the final state and the immediate
ticks fired. -/
def dashboardsInit (registry : List String) (persisted : List DashRowM)
    (st : SchedState) : SchedState × List Nat :=
  persisted.foldl (initStep registry) (st, [])

/-- Row `r` is deleted during init because some processed row with an
unknown registry name had its id. -/
def deletedBy (registry : List String) (l : List DashRowM) (r : DashRowM) : Bool :=
  l.any fun q => decide (q.name ∉ registry) && q.id == r.id

lemma filterCongr {α : Type} (p q : α → Bool) (l : List α)
    (h : ∀ a ∈ l, p a = q a) : l.filter p = l.filter q := by
  induction l with
  | nil => rfl
  | cons a rest ih =>
      rw [List.filter_cons, List.filter_cons, h a (by simp),
        ih (fun a ha => h a (by simp [ha]))]

lemma natBeqComm (a b : Nat) : (a == b) = (b == a) := by
  by_cases h : a = b
  · rw [h]
  · have h1 : (a == b) = false := beq_eq_false_iff_ne.mpr h
    have h2 : (b == a) = false := beq_eq_false_iff_ne.mpr (fun hh => h hh.symm)
    rw [h1, h2]

lemma initFold_spec (registry : List String) :
    ∀ (l : List DashRowM) (st : SchedState) (acc : List Nat),
      (∀ r ∈ l, r.id ∉ st.timers) → (l.map (fun r => r.id)).Nodup →
      l.foldl (initStep registry) (st, acc)
        = (⟨st.timers ++ (l.filter fun r => decide (r.name ∈ registry)).map
              (fun r => r.id),
            st.rows.filter fun r => ! deletedBy registry l r⟩,
           acc ++ (l.filter fun r => decide (r.name ∈ registry)).map
              (fun r => r.id)) := by
  intro l
  induction l with
  | nil =>
      intro st acc _ _
      simp only [List.foldl_nil, List.filter_nil, List.map_nil, List.append_nil]
      have hrows : (st.rows.filter fun r => ! deletedBy registry [] r) = st.rows := by
        apply List.filter_eq_self.mpr
        intro r _
        simp [deletedBy]
      rw [hrows]
  | cons q rest ih =>
      intro st acc hdisj hnd
      simp only [List.map_cons, List.nodup_cons] at hnd
      rw [List.foldl_cons]
      by_cases hq : q.name ∈ registry
      · have hnotin : q.id ∉ st.timers := hdisj q (by simp)
        have hstep : initStep registry (st, acc) q
            = (⟨st.timers ++ [q.id], st.rows⟩, acc ++ [q.id]) := by
          unfold initStep startTimerM
          rw [if_pos hq, if_neg hnotin]
          rfl
        rw [hstep]
        rw [ih ⟨st.timers ++ [q.id], st.rows⟩ (acc ++ [q.id])
          (by
            intro r hr
            rw [List.mem_append, List.mem_singleton]
            push_neg
            refine ⟨hdisj r (by simp [hr]), ?_⟩
            intro heq
            exact hnd.1 (heq ▸ List.mem_map_of_mem (fun r => r.id) hr))
          hnd.2]
        have hfiltc : ((q :: rest).filter fun r => decide (r.name ∈ registry))
            = q :: (rest.filter fun r => decide (r.name ∈ registry)) := by
          rw [List.filter_cons, if_pos (by simp [hq])]
        have hrows : (st.rows.filter fun r => ! deletedBy registry rest r)
            = st.rows.filter fun r => ! deletedBy registry (q :: rest) r := by
          apply filterCongr
          intro r _
          simp [deletedBy, List.any_cons, hq]
        rw [hfiltc, hrows]
        simp [List.append_assoc]
      · have hstep : initStep registry (st, acc) q
            = (deleteDashboardM st q.id, acc) := by
          unfold initStep
          rw [if_neg hq]
        rw [hstep]
        rw [ih (deleteDashboardM st q.id) acc
          (fun r hr => hdisj r (by simp [hr])) hnd.2]
        have hfiltc : ((q :: rest).filter fun r => decide (r.name ∈ registry))
            = rest.filter fun r => decide (r.name ∈ registry) := by
          rw [List.filter_cons, if_neg (by simp [hq])]
        have hrows : ((deleteDashboardM st q.id).rows.filter
              fun r => ! deletedBy registry rest r)
            = st.rows.filter fun r => ! deletedBy registry (q :: rest) r := by
          unfold deleteDashboardM
          rw [List.filter_filter]
          apply filterCongr
          intro r _
          have hd : deletedBy registry (q :: rest) r
              = ((q.id == r.id) || deletedBy registry rest r) := by
            simp [deletedBy, List.any_cons, hq]
          rw [hd, Bool.not_or, natBeqComm q.id r.id, Bool.and_comm]
        rw [hfiltc, hrows]
        rfl


/-- C8: at process startup, `dashboards.init` (run with an empty timer
map) deletes every persisted row whose registry name is unknown — firing
no tick and arming no timer for it — and for every row with a known name
fires exactly one immediate tick and arms exactly one recurring timer. -/
theorem c8_scheduler_recovery (registry : List String) (persisted : List DashRowM)
    (hids : (persisted.map (fun r => r.id)).Nodup) :
    (∀ row ∈ persisted, row.name ∉ registry →
        row.id ∉ (dashboardsInit registry persisted ⟨[], persisted⟩).1.timers ∧
        (dashboardsInit registry persisted ⟨[], persisted⟩).2.count row.id = 0 ∧
        ∀ r ∈ (dashboardsInit registry persisted ⟨[], persisted⟩).1.rows,
          r.id ≠ row.id) ∧
    (∀ row ∈ persisted, row.name ∈ registry →
        (dashboardsInit registry persisted ⟨[], persisted⟩).1.timers.count row.id
          = 1 ∧
        (dashboardsInit registry persisted ⟨[], persisted⟩).2.count row.id = 1) := by
  have hspec := initFold_spec registry persisted ⟨[], persisted⟩ []
    (by intro r _ hr; exact absurd hr (List.not_mem_nil _)) hids
  unfold dashboardsInit
  rw [hspec]
  simp only [List.nil_append]
  have hknodup : ((persisted.filter fun r => decide (r.name ∈ registry)).map
      (fun r => r.id)).Nodup :=
    List.Nodup.sublist (List.Sublist.map _ (List.filter_sublist persisted)) hids
  constructor
  · intro row hrow hunk
    have hnotmem : row.id ∉ (persisted.filter fun r => decide (r.name ∈ registry)).map
        (fun r => r.id) := by
      intro hmem
      obtain ⟨r, hrf, hrid⟩ := List.mem_map.mp hmem
      have hrp : r ∈ persisted := List.mem_of_mem_filter hrf
      have hrname : r.name ∈ registry := by
        have hof := List.of_mem_filter hrf
        simpa using hof
      have hre : r = row := List.inj_on_of_nodup_map hids hrp hrow hrid
      exact hunk (hre ▸ hrname)
    refine ⟨hnotmem, List.count_eq_zero.mpr hnotmem, ?_⟩
    intro r hr heq
    have hsurv := List.of_mem_filter hr
    have hdel : deletedBy registry persisted r = true := by
      unfold deletedBy
      rw [List.any_eq_true]
      refine ⟨row, hrow, ?_⟩
      rw [Bool.and_eq_true, decide_eq_true_eq]
      exact ⟨hunk, beq_iff_eq.mpr heq.symm⟩
    rw [hdel] at hsurv
    exact absurd hsurv (by simp)
  · intro row hrow hk
    have hmemk : row.id ∈ (persisted.filter fun r => decide (r.name ∈ registry)).map
        (fun r => r.id) :=
      List.mem_map_of_mem _ (List.mem_filter.mpr ⟨hrow, by simp [hk]⟩)
    exact ⟨List.count_eq_one_of_mem hknodup hmemk,
      List.count_eq_one_of_mem hknodup hmemk⟩

/-- A persisted dashboard row whose producer name is registered. -/
def rowRss : DashRowM :=
  ⟨1, "rss", "general", "news", 10, 60000, "https://example.com/feed.xml", 1⟩

/-- A persisted dashboard row whose producer name is no longer known. -/
def rowOld : DashRowM := ⟨2, "old", "general", "news", 11, 60000, "", 1⟩

/-- Witness for `c8_scheduler_recovery` with registry ["rss"] and one
known plus one orphaned persisted row. -/
theorem c8_scheduler_recovery_witness :
    (rowOld.id ∉ (dashboardsInit ["rss"] [rowRss, rowOld]
        ⟨[], [rowRss, rowOld]⟩).1.timers ∧
      (dashboardsInit ["rss"] [rowRss, rowOld]
        ⟨[], [rowRss, rowOld]⟩).2.count rowOld.id = 0 ∧
      ∀ r ∈ (dashboardsInit ["rss"] [rowRss, rowOld]
        ⟨[], [rowRss, rowOld]⟩).1.rows, r.id ≠ rowOld.id) ∧
    ((dashboardsInit ["rss"] [rowRss, rowOld]
        ⟨[], [rowRss, rowOld]⟩).1.timers.count rowRss.id = 1 ∧
      (dashboardsInit ["rss"] [rowRss, rowOld]
        ⟨[], [rowRss, rowOld]⟩).2.count rowRss.id = 1) :=
  ⟨(c8_scheduler_recovery ["rss"] [rowRss, rowOld] (by decide)).1 rowOld
      (by decide) (by decide),
   (c8_scheduler_recovery ["rss"] [rowRss, rowOld] (by decide)).2 rowRss
      (by decide) (by decide)⟩


/-! ### src/dashboards/rss.ts — bootstrap and de-duplication (claim C9)

The seen-item state (the feed_items table) is the list of
(dashboard id, guid) pairs.  Fetching/parsing the feed and rendering are
out of scope; the items the feed currently contains are the input. -/

structure FeedItemM where
  guid : String
  title : String
deriving DecidableEq

/-- `markFeedItemSeen` of src/db.ts: INSERT OR IGNORE against
UNIQUE(dashboard_id, item_guid), reporting whether a row was inserted. -/
def markFeedItemSeen (seen : List (Nat × String)) (dashId : Nat)
    (guid : String) : List (Nat × String) × Bool :=
  if (dashId, guid) ∈ seen then (seen, false)
  else (seen ++ [(dashId, guid)], true)

structure RssTickResult where
  seen : List (Nat × String)
  bootstrapped : Nat
  posts : List FeedItemM
deriving DecidableEq

/-- The seen/bootstrap/announce logic of `rssDef.fetch`: on the bootstrap
tick (`row.bootstrapped === 0`) every current item is marked seen and the
flag is set, with no per-item message; on later ticks the items whose
`markFeedItemSeen` insert reported new are collected and posted oldest
first (`newItems.reverse()`). -/
def rssFetchTick (rowId : Nat) (bootstrapped : Nat) (items : List FeedItemM)
    (seen : List (Nat × String)) : RssTickResult :=
  if bootstrapped == 0 then
    { seen := items.foldl (fun s it => (markFeedItemSeen s rowId it.guid).1) seen
      bootstrapped := 1
      posts := [] }
  else
    { seen := (items.foldl
        (fun (acc : List (Nat × String) × List FeedItemM) it =>
          ((markFeedItemSeen acc.1 rowId it.guid).1,
            if (markFeedItemSeen acc.1 rowId it.guid).2 then acc.2 ++ [it]
            else acc.2))
        (seen, [])).1
      bootstrapped := bootstrapped
      posts := ((items.foldl
        (fun (acc : List (Nat × String) × List FeedItemM) it =>
          ((markFeedItemSeen acc.1 rowId it.guid).1,
            if (markFeedItemSeen acc.1 rowId it.guid).2 then acc.2 ++ [it]
            else acc.2))
        (seen, [])).2).reverse }

lemma markFold_mono (rowId : Nat) :
    ∀ (items : List FeedItemM) (seen : List (Nat × String)) (p : Nat × String),
      p ∈ seen →
      p ∈ items.foldl (fun s it => (markFeedItemSeen s rowId it.guid).1) seen := by
  intro items
  induction items with
  | nil => intro seen p hp; exact hp
  | cons it rest ih =>
      intro seen p hp
      rw [List.foldl_cons]
      apply ih
      unfold markFeedItemSeen
      split
      · exact hp
      · exact List.mem_append_left _ hp

lemma markFold_covers (rowId : Nat) :
    ∀ (items : List FeedItemM) (seen : List (Nat × String)) (it : FeedItemM),
      it ∈ items →
      (rowId, it.guid) ∈
        items.foldl (fun s it => (markFeedItemSeen s rowId it.guid).1) seen := by
  intro items
  induction items with
  | nil => intro seen it hit; cases hit
  | cons hd rest ih =>
      intro seen it hit
      rw [List.foldl_cons]
      rcases List.mem_cons.mp hit with hm | hm
      · apply markFold_mono
        subst hm
        unfold markFeedItemSeen
        split
        · assumption
        · exact List.mem_append_right _ (by simp)
      · exact ih _ it hm

lemma collectFold_spec (rowId : Nat) :
    ∀ (items : List FeedItemM) (seen : List (Nat × String)) (acc : List FeedItemM),
      (items.map (fun it => it.guid)).Nodup →
      (items.foldl
        (fun (acc : List (Nat × String) × List FeedItemM) it =>
          ((markFeedItemSeen acc.1 rowId it.guid).1,
            if (markFeedItemSeen acc.1 rowId it.guid).2 then acc.2 ++ [it]
            else acc.2))
        (seen, acc)).2
      = acc ++ items.filter (fun it => decide ((rowId, it.guid) ∉ seen)) := by
  intro items
  induction items with
  | nil => intro seen acc _; simp
  | cons hd rest ih =>
      intro seen acc hnd
      simp only [List.map_cons, List.nodup_cons] at hnd
      by_cases hmem : (rowId, hd.guid) ∈ seen
      · have hstep : markFeedItemSeen seen rowId hd.guid = (seen, false) := by
          unfold markFeedItemSeen
          rw [if_pos hmem]
        simp only [List.foldl_cons, hstep, Bool.false_eq_true, if_false]
        rw [List.filter_cons, if_neg (by simp [hmem])]
        exact ih seen acc hnd.2
      · have hstep : markFeedItemSeen seen rowId hd.guid
            = (seen ++ [(rowId, hd.guid)], true) := by
          unfold markFeedItemSeen
          rw [if_neg hmem]
        simp only [List.foldl_cons, hstep, if_true]
        rw [List.filter_cons, if_pos (by simp [hmem])]
        rw [ih (seen ++ [(rowId, hd.guid)]) (acc ++ [hd]) hnd.2]
        have hfilter : (rest.filter fun it =>
              decide ((rowId, it.guid) ∉ seen ++ [(rowId, hd.guid)]))
            = rest.filter fun it => decide ((rowId, it.guid) ∉ seen) := by
          apply filterCongr
          intro it hit
          have hne : it.guid ≠ hd.guid := by
            intro heq
            exact hnd.1 (heq ▸ List.mem_map_of_mem (fun it => it.guid) hit)
          by_cases hs : (rowId, it.guid) ∈ seen
          · simp [hs]
          · simp [hs, List.mem_append, hne]
        rw [hfilter]
        simp [List.append_assoc]

/-- C9: a feed dashboard's bootstrap tick marks every current item as seen,
sets the bootstrapped flag, and posts nothing; every later tick posts
exactly one standalone message per previously-unseen item, oldest first
(the reverse of feed order), and an item already marked seen is never
announced. -/
theorem c9_feed_bootstrap_dedup (rowId bootstrapped : Nat)
    (items : List FeedItemM) (seen : List (Nat × String)) :
    (bootstrapped = 0 →
      (rssFetchTick rowId bootstrapped items seen).posts = [] ∧
      (rssFetchTick rowId bootstrapped items seen).bootstrapped = 1 ∧
      ∀ it ∈ items, (rowId, it.guid) ∈ (rssFetchTick rowId bootstrapped items seen).seen) ∧
    (bootstrapped ≠ 0 → (items.map (fun it => it.guid)).Nodup →
      (rssFetchTick rowId bootstrapped items seen).posts
        = (items.filter fun it => decide ((rowId, it.guid) ∉ seen)).reverse ∧
      ∀ it ∈ items, (rowId, it.guid) ∈ seen →
        it ∉ (rssFetchTick rowId bootstrapped items seen).posts) := by
  constructor
  · intro hb
    subst hb
    unfold rssFetchTick
    rw [if_pos (show ((0 : Nat) == 0) = true from rfl)]
    exact ⟨rfl, rfl, fun it hit => markFold_covers rowId items seen it hit⟩
  · intro hb hnd
    have hne : (bootstrapped == 0) = false := by
      simp [hb]
    unfold rssFetchTick
    rw [hne]
    simp only [Bool.false_eq_true, if_false]
    have hposts := collectFold_spec rowId items seen [] hnd
    refine ⟨?_, ?_⟩
    · rw [hposts]
      rfl
    · intro it hit hseen hpost
      rw [hposts] at hpost
      simp only [List.nil_append, List.mem_reverse] at hpost
      have := List.of_mem_filter hpost
      rw [decide_eq_true_eq] at this
      exact this hseen

/-- Witness for `c9_feed_bootstrap_dedup`: a 3-item feed bootstraps with
no posts; a later tick with one already-seen and one new item posts only
the new one. -/
theorem c9_feed_bootstrap_dedup_witness :
    ((rssFetchTick 1 0 [⟨"a", "A"⟩, ⟨"b", "B"⟩, ⟨"c", "C"⟩] []).posts = [] ∧
      (rssFetchTick 1 0 [⟨"a", "A"⟩, ⟨"b", "B"⟩, ⟨"c", "C"⟩] []).bootstrapped = 1 ∧
      ∀ it ∈ ([⟨"a", "A"⟩, ⟨"b", "B"⟩, ⟨"c", "C"⟩] : List FeedItemM),
        (1, it.guid) ∈ (rssFetchTick 1 0 [⟨"a", "A"⟩, ⟨"b", "B"⟩, ⟨"c", "C"⟩] []).seen) ∧
    ((rssFetchTick 1 1 [⟨"d", "D"⟩, ⟨"a", "A"⟩] [(1, "a")]).posts
        = (([⟨"d", "D"⟩, ⟨"a", "A"⟩] : List FeedItemM).filter
            fun it => decide ((1, it.guid) ∉ ([(1, "a")] : List (Nat × String)))).reverse ∧
      ∀ it ∈ ([⟨"d", "D"⟩, ⟨"a", "A"⟩] : List FeedItemM),
        (1, it.guid) ∈ ([(1, "a")] : List (Nat × String)) →
        it ∉ (rssFetchTick 1 1 [⟨"d", "D"⟩, ⟨"a", "A"⟩] [(1, "a")]).posts) :=
  ⟨(c9_feed_bootstrap_dedup 1 0 [⟨"a", "A"⟩, ⟨"b", "B"⟩, ⟨"c", "C"⟩] []).1 rfl,
   (c9_feed_bootstrap_dedup 1 1 [⟨"d", "D"⟩, ⟨"a", "A"⟩] [(1, "a")]).2
     (by decide) (by decide)⟩

end ZulipBot
